import Mathlib

/-!
# bvec: vectors, matrices and transform builders

A shallow embedding of `bvec.h`.  The header works on `float`; here the scalar
type is a parameter `F`, and every function asks of `F` only the operations its
C body uses.  A statement proved for every `F` with those operations holds
whatever the arithmetic does; a statement that needs the laws of a commutative
ring or of a field reads `float` arithmetic as exact arithmetic.

The functions of `<math.h>` the header calls (`sqrtf`, `cosf`, `sinf`, `tanf`)
are not part of the header: they are passed in as a record `Libm F`.

Two further readings of `float` are used.  `IEEE finite` lists facts of
IEEE-754 arithmetic in which no rounding takes part (`0 * a = 0` for finite
`a`, `a + 0 = a`, ...): a statement proved from them holds for binary32 and for
exact arithmetic alike.  `Flt` adds the special values `+Inf`, `-Inf` and `NaN`
to the rationals; it carries the examples in which a special value turns up.
-/

namespace Bvec

/-! ## Data model -/

/-- The union `vec2`: fields `x, y`. -/
structure vec2 (F : Type) where
  x : F
  y : F
  deriving DecidableEq, Repr

/-- The union `vec3`: fields `x, y, z`. -/
structure vec3 (F : Type) where
  x : F
  y : F
  z : F
  deriving DecidableEq, Repr

/-- The union `vec4`: fields `x, y, z, w`. -/
structure vec4 (F : Type) where
  x : F
  y : F
  z : F
  w : F
  deriving DecidableEq, Repr

/-- The struct `mat2`: rows `a, b`. -/
structure mat2 (F : Type) where
  a : vec2 F
  b : vec2 F
  deriving DecidableEq, Repr

/-- The struct `mat3`: rows `a, b, c`. -/
structure mat3 (F : Type) where
  a : vec3 F
  b : vec3 F
  c : vec3 F
  deriving DecidableEq, Repr

/-- The struct `mat4`: rows `a, b, c, d`. -/
structure mat4 (F : Type) where
  a : vec4 F
  b : vec4 F
  c : vec4 F
  d : vec4 F
  deriving DecidableEq, Repr

/-- The array view `elements[2]` of the union `vec2`. -/
def vec2.elements {F : Type} (v : vec2 F) : Fin 2 → F
  | 0 => v.x
  | 1 => v.y

/-- The array view `elements[3]` of the union `vec3`. -/
def vec3.elements {F : Type} (v : vec3 F) : Fin 3 → F
  | 0 => v.x
  | 1 => v.y
  | 2 => v.z

/-- The array view `elements[4]` of the union `vec4`. -/
def vec4.elements {F : Type} (v : vec4 F) : Fin 4 → F
  | 0 => v.x
  | 1 => v.y
  | 2 => v.z
  | 3 => v.w

/-- Row `i` of a `mat2`, rows counted `a, b`. -/
def mat2.row {F : Type} (m : mat2 F) : Fin 2 → vec2 F
  | 0 => m.a
  | 1 => m.b

/-- Row `i` of a `mat3`, rows counted `a, b, c`. -/
def mat3.row {F : Type} (m : mat3 F) : Fin 3 → vec3 F
  | 0 => m.a
  | 1 => m.b
  | 2 => m.c

/-- Row `i` of a `mat4`, rows counted `a, b, c, d`. -/
def mat4.row {F : Type} (m : mat4 F) : Fin 4 → vec4 F
  | 0 => m.a
  | 1 => m.b
  | 2 => m.c
  | 3 => m.d

/-- Column `j` of a `mat4`: element `j` of each of the rows `a, b, c, d`. -/
def mat4.column {F : Type} (m : mat4 F) (j : Fin 4) : vec4 F :=
  ⟨m.a.elements j, m.b.elements j, m.c.elements j, m.d.elements j⟩

/-- The entry at row `i`, element `j` of a `mat4`. -/
def mat4.entry {F : Type} (m : mat4 F) (i j : Fin 4) : F :=
  (m.row i).elements j

/-- The functions of `<math.h>` that the header calls. -/
structure Libm (F : Type) where
  sqrtf : F → F
  cosf : F → F
  sinf : F → F
  tanf : F → F

/-! ## Vector algebra -/

def vec2Add {F : Type} [Add F] (a b : vec2 F) : vec2 F :=
  ⟨a.x + b.x, a.y + b.y⟩

def vec3Add {F : Type} [Add F] (a b : vec3 F) : vec3 F :=
  ⟨a.x + b.x, a.y + b.y, a.z + b.z⟩

def vec4Add {F : Type} [Add F] (a b : vec4 F) : vec4 F :=
  ⟨a.x + b.x, a.y + b.y, a.z + b.z, a.w + b.w⟩

def vec2Sub {F : Type} [Sub F] (a b : vec2 F) : vec2 F :=
  ⟨a.x - b.x, a.y - b.y⟩

def vec3Sub {F : Type} [Sub F] (a b : vec3 F) : vec3 F :=
  ⟨a.x - b.x, a.y - b.y, a.z - b.z⟩

def vec4Sub {F : Type} [Sub F] (a b : vec4 F) : vec4 F :=
  ⟨a.x - b.x, a.y - b.y, a.z - b.z, a.w - b.w⟩

def vec2Scale {F : Type} [Mul F] (a : vec2 F) (t : F) : vec2 F :=
  ⟨a.x * t, a.y * t⟩

def vec3Scale {F : Type} [Mul F] (a : vec3 F) (t : F) : vec3 F :=
  ⟨a.x * t, a.y * t, a.z * t⟩

def vec4Scale {F : Type} [Mul F] (a : vec4 F) (t : F) : vec4 F :=
  ⟨a.x * t, a.y * t, a.z * t, a.w * t⟩

def vec2Dot {F : Type} [Add F] [Mul F] (a b : vec2 F) : F :=
  a.x * b.x + a.y * b.y

def vec3Dot {F : Type} [Add F] [Mul F] (a b : vec3 F) : F :=
  a.x * b.x + a.y * b.y + a.z * b.z

def vec4Dot {F : Type} [Add F] [Mul F] (a b : vec4 F) : F :=
  a.x * b.x + a.y * b.y + a.z * b.z + a.w * b.w

def vec2Cross {F : Type} [Sub F] [Mul F] (a b : vec2 F) : F :=
  a.x * b.y - a.y * b.x

def vec3Cross {F : Type} [Sub F] [Mul F] (a b : vec3 F) : vec3 F :=
  ⟨a.y * b.z - a.z * b.y, a.z * b.x - a.x * b.z, a.x * b.y - a.y * b.x⟩

def vec2Length {F : Type} [Add F] [Mul F] (L : Libm F) (v : vec2 F) : F :=
  L.sqrtf (v.x * v.x + v.y * v.y)

def vec3Length {F : Type} [Add F] [Mul F] (L : Libm F) (v : vec3 F) : F :=
  L.sqrtf (v.x * v.x + v.y * v.y + v.z * v.z)

def vec4Length {F : Type} [Add F] [Mul F] (L : Libm F) (v : vec4 F) : F :=
  L.sqrtf (v.x * v.x + v.y * v.y + v.z * v.z + v.w * v.w)

def vec2LengthSq {F : Type} [Add F] [Mul F] (v : vec2 F) : F :=
  vec2Dot v v

def vec3LengthSq {F : Type} [Add F] [Mul F] (v : vec3 F) : F :=
  vec3Dot v v

def vec4LengthSq {F : Type} [Add F] [Mul F] (v : vec4 F) : F :=
  vec4Dot v v

def vec2Normalize {F : Type} [One F] [Add F] [Mul F] [Div F] (L : Libm F) (v : vec2 F) : vec2 F :=
  let invLen := 1 / vec2Length L v
  ⟨v.x * invLen, v.y * invLen⟩

def vec3Normalize {F : Type} [One F] [Add F] [Mul F] [Div F] (L : Libm F) (v : vec3 F) : vec3 F :=
  let invLen := 1 / vec3Length L v
  ⟨v.x * invLen, v.y * invLen, v.z * invLen⟩

def vec4Normalize {F : Type} [One F] [Add F] [Mul F] [Div F] (L : Libm F) (v : vec4 F) : vec4 F :=
  let invLen := 1 / vec4Length L v
  ⟨v.x * invLen, v.y * invLen, v.z * invLen, v.w * invLen⟩

/-! ## Matrix construction and structure -/

def mat2Scale {F : Type} [Mul F] (m : mat2 F) (t : F) : mat2 F :=
  ⟨vec2Scale m.a t, vec2Scale m.b t⟩

def mat3Scale {F : Type} [Mul F] (m : mat3 F) (t : F) : mat3 F :=
  ⟨vec3Scale m.a t, vec3Scale m.b t, vec3Scale m.c t⟩

def mat4Scale {F : Type} [Mul F] (m : mat4 F) (t : F) : mat4 F :=
  ⟨vec4Scale m.a t, vec4Scale m.b t, vec4Scale m.c t, vec4Scale m.d t⟩

def mat2Identity {F : Type} [Zero F] [One F] : mat2 F :=
  ⟨⟨1, 0⟩, ⟨0, 1⟩⟩

def mat3Identity {F : Type} [Zero F] [One F] : mat3 F :=
  ⟨⟨1, 0, 0⟩, ⟨0, 1, 0⟩, ⟨0, 0, 1⟩⟩

def mat4Identity {F : Type} [Zero F] [One F] : mat4 F :=
  ⟨⟨1, 0, 0, 0⟩, ⟨0, 1, 0, 0⟩, ⟨0, 0, 1, 0⟩, ⟨0, 0, 0, 1⟩⟩

def vec2Zero {F : Type} [Zero F] : vec2 F :=
  ⟨0, 0⟩

def vec3Zero {F : Type} [Zero F] : vec3 F :=
  ⟨0, 0, 0⟩

def vec4Zero {F : Type} [Zero F] : vec4 F :=
  ⟨0, 0, 0, 0⟩

def mat2Zero {F : Type} [Zero F] : mat2 F :=
  ⟨vec2Zero, vec2Zero⟩

def mat3Zero {F : Type} [Zero F] : mat3 F :=
  ⟨vec3Zero, vec3Zero, vec3Zero⟩

def mat4Zero {F : Type} [Zero F] : mat4 F :=
  ⟨vec4Zero, vec4Zero, vec4Zero, vec4Zero⟩

def mat2Diag {F : Type} [Zero F] (v : vec2 F) : mat2 F :=
  ⟨⟨v.x, 0⟩, ⟨0, v.y⟩⟩

def mat3Diag {F : Type} [Zero F] (v : vec3 F) : mat3 F :=
  ⟨⟨v.x, 0, 0⟩, ⟨0, v.y, 0⟩, ⟨0, 0, v.z⟩⟩

def mat4Diag {F : Type} [Zero F] (v : vec4 F) : mat4 F :=
  ⟨⟨v.x, 0, 0, 0⟩, ⟨0, v.y, 0, 0⟩, ⟨0, 0, v.z, 0⟩, ⟨0, 0, 0, v.w⟩⟩

def mat2Transpose {F : Type} (m : mat2 F) : mat2 F :=
  { a := { x := m.a.x, y := m.b.x }
    b := { x := m.a.y, y := m.b.y } }

def mat3Transpose {F : Type} (m : mat3 F) : mat3 F :=
  { a := { x := m.a.x, y := m.b.x, z := m.c.x }
    b := { x := m.a.y, y := m.b.y, z := m.c.y }
    c := { x := m.a.z, y := m.b.z, z := m.c.z } }

def mat4Transpose {F : Type} (m : mat4 F) : mat4 F :=
  { a := { x := m.a.x, y := m.b.x, z := m.c.x, w := m.d.x }
    b := { x := m.a.y, y := m.b.y, z := m.c.y, w := m.d.y }
    c := { x := m.a.z, y := m.b.z, z := m.c.z, w := m.d.z }
    d := { x := m.a.w, y := m.b.w, z := m.c.w, w := m.d.w } }

/-! ## Matrix algebra -/

def mat4Mul {F : Type} [Add F] [Mul F] (i j : mat4 F) : mat4 F :=
  let col_x : vec4 F := ⟨j.a.x, j.b.x, j.c.x, j.d.x⟩
  let col_y : vec4 F := ⟨j.a.y, j.b.y, j.c.y, j.d.y⟩
  let col_z : vec4 F := ⟨j.a.z, j.b.z, j.c.z, j.d.z⟩
  let col_w : vec4 F := ⟨j.a.w, j.b.w, j.c.w, j.d.w⟩
  { a := { x := vec4Dot i.a col_x, y := vec4Dot i.a col_y,
           z := vec4Dot i.a col_z, w := vec4Dot i.a col_w }
    b := { x := vec4Dot i.b col_x, y := vec4Dot i.b col_y,
           z := vec4Dot i.b col_z, w := vec4Dot i.b col_w }
    c := { x := vec4Dot i.c col_x, y := vec4Dot i.c col_y,
           z := vec4Dot i.c col_z, w := vec4Dot i.c col_w }
    d := { x := vec4Dot i.d col_x, y := vec4Dot i.d col_y,
           z := vec4Dot i.d col_z, w := vec4Dot i.d col_w } }

def mat4MulVec4 {F : Type} [Add F] [Mul F] (m : mat4 F) (v : vec4 F) : vec4 F :=
  { x := vec4Dot m.a v, y := vec4Dot m.b v, z := vec4Dot m.c v, w := vec4Dot m.d v }

/-! ## Widening and transform builders -/

def mat2ToMat4 {F : Type} [Zero F] [One F] (m : mat2 F) : mat4 F :=
  let result : mat4 F := mat4Identity
  { result with
    a := { result.a with x := m.a.x, y := m.a.y }
    b := { result.b with x := m.b.x, y := m.b.y } }

def mat3ToMat4 {F : Type} [Zero F] [One F] (m : mat3 F) : mat4 F :=
  let result : mat4 F := mat4Identity
  { result with
    a := { result.a with x := m.a.x, y := m.a.y, z := m.a.z }
    b := { result.b with x := m.b.x, y := m.b.y, z := m.b.z }
    c := { result.c with x := m.c.x, y := m.c.y, z := m.c.z } }

def mat4Translate {F : Type} [Zero F] [One F] (v : vec3 F) : mat4 F :=
  let result : mat4 F := mat4Identity
  { result with
    a := { result.a with w := v.x }
    b := { result.b with w := v.y }
    c := { result.c with w := v.z } }

def mat4ScaleVec3 {F : Type} [Zero F] [One F] (v : vec3 F) : mat4 F :=
  let result : mat4 F := mat4Identity
  { result with
    a := { result.a with x := v.x }
    b := { result.b with y := v.y }
    c := { result.c with z := v.z } }

def mat4Rotate {F : Type} [Zero F] [One F] [Add F] [Sub F] [Mul F] [Div F]
    (L : Libm F) (axis : vec3 F) (angle : F) : mat4 F :=
  let result : mat4 F := mat4Identity
  let c := L.cosf angle
  let s := L.sinf angle
  let t := 1 - c
  let u := vec3Normalize L axis
  { result with
    a := { result.a with
           x := t * u.x * u.x + c
           y := t * u.x * u.y - s * u.z
           z := t * u.x * u.z + s * u.y }
    b := { result.b with
           x := t * u.x * u.y + s * u.z
           y := t * u.y * u.y + c
           z := t * u.y * u.z - s * u.x }
    c := { result.c with
           x := t * u.x * u.z - s * u.y
           y := t * u.y * u.z + s * u.x
           z := t * u.z * u.z + c } }

def mat4Transform {F : Type} [Zero F] [One F] [Add F] [Sub F] [Mul F] [Div F]
    (L : Libm F) (translation axis : vec3 F) (angle : F) (scale : vec3 F) : mat4 F :=
  let T := mat4Translate translation
  let R := mat4Rotate L axis angle
  let S := mat4ScaleVec3 scale
  let RS := mat4Mul R S
  let TRS := mat4Mul T RS
  TRS

/-! ## Projection builder -/

/-- The literal `3.14159265f`: the binary32 value nearest to that decimal,
`13176795 / 2^22`. -/
def piLiteral {F : Type} [NatCast F] [Div F] : F :=
  ((13176795 : ℕ) : F) / ((4194304 : ℕ) : F)

def mat4Perspective {F : Type} [Zero F] [One F] [NatCast F] [Add F] [Sub F] [Mul F] [Div F]
    [Neg F] (L : Libm F) (fovDeg aspectRatio nearPlane farPlane : F) : mat4 F :=
  let fovRad := fovDeg * (piLiteral / ((180 : ℕ) : F))
  let result : mat4 F := mat4Zero
  let tanHalfFov := L.tanf (fovRad / ((2 : ℕ) : F))
  { result with
    a := { result.a with x := 1 / (aspectRatio * tanHalfFov) }
    b := { result.b with y := 1 / tanHalfFov }
    c := { result.c with
           z := -(farPlane + nearPlane) / (farPlane - nearPlane)
           w := -(((2 : ℕ) : F) * farPlane * nearPlane) / (farPlane - nearPlane) }
    d := { result.d with z := -1 } }

/-! ## Finite values and the rounding-free facts of IEEE-754 -/

/-- All three components of a `vec3` satisfy `finite`. -/
def vec3.allFinite {F : Type} (finite : F → Prop) (v : vec3 F) : Prop :=
  finite v.x ∧ finite v.y ∧ finite v.z

/-- All four components of a `vec4` satisfy `finite`. -/
def vec4.allFinite {F : Type} (finite : F → Prop) (v : vec4 F) : Prop :=
  finite v.x ∧ finite v.y ∧ finite v.z ∧ finite v.w

/-- All sixteen entries of a `mat4` satisfy `finite`. -/
def mat4.allFinite {F : Type} (finite : F → Prop) (m : mat4 F) : Prop :=
  m.a.allFinite finite ∧ m.b.allFinite finite ∧ m.c.allFinite finite ∧ m.d.allFinite finite

/-- Facts of IEEE-754 arithmetic in which no rounding takes part, for a scalar
type with a predicate `finite` (neither an infinity nor a NaN).  Binary32
satisfies every one of them when its values are compared as `==` compares them
(`-0` is `0`) and the NaNs count as one value; so does any field with `finite`
true everywhere. -/
structure IEEE {F : Type} [Zero F] [One F] [Add F] [Sub F] [Mul F] [Div F] [Neg F]
    (finite : F → Prop) : Prop where
  finite_zero : finite 0
  finite_one : finite 1
  zero_mul : ∀ a : F, finite a → 0 * a = 0
  mul_zero : ∀ a : F, finite a → a * 0 = 0
  one_mul : ∀ a : F, 1 * a = a
  mul_one : ∀ a : F, a * 1 = a
  add_zero : ∀ a : F, a + 0 = a
  zero_add : ∀ a : F, 0 + a = a
  sub_zero : ∀ a : F, a - 0 = a
  zero_sub : ∀ a : F, 0 - a = -a
  sub_self : ∀ a : F, finite a → a - a = 0
  neg_one_mul : ∀ a : F, -1 * a = -a
  one_div_one : (1 : F) / 1 = 1
  finite_neg : ∀ a : F, finite a → finite (-a)
  finite_of_add : ∀ a b : F, finite (a + b) → finite a ∧ finite b
  finite_of_sub : ∀ a b : F, finite (a - b) → finite a ∧ finite b
  finite_of_mul : ∀ a b : F, finite (a * b) → finite a ∧ finite b

/-! ## A carrier with the IEEE-754 special values -/

/-- A `float` as a rational or one of the special values `+Inf`, `-Inf`, `NaN`.
Finite values are computed with exactly: rounding, overflow and the sign of
zero are left out, the rules for the special values are those of IEEE-754. -/
inductive Flt where
  | fin (q : ℚ)
  | pinf
  | ninf
  | nan
  deriving DecidableEq

/-- Neither an infinity nor a NaN. -/
def Flt.isFinite : Flt → Prop
  | .fin _ => True
  | _ => False

/-- Negation: the sign of an infinity flips, NaN stays. -/
def Flt.neg : Flt → Flt
  | .fin a => .fin (-a)
  | .pinf => .ninf
  | .ninf => .pinf
  | .nan => .nan

/-- Addition: `Inf + (-Inf)` is NaN, an infinity absorbs a finite value. -/
def Flt.add : Flt → Flt → Flt
  | .fin a, .fin b => .fin (a + b)
  | .fin _, .pinf => .pinf
  | .fin _, .ninf => .ninf
  | .pinf, .fin _ => .pinf
  | .pinf, .pinf => .pinf
  | .ninf, .fin _ => .ninf
  | .ninf, .ninf => .ninf
  | .pinf, .ninf => .nan
  | .ninf, .pinf => .nan
  | .nan, _ => .nan
  | _, .nan => .nan

/-- Subtraction is addition of the negated value. -/
def Flt.sub (a b : Flt) : Flt :=
  Flt.add a (Flt.neg b)

/-- The infinity with the sign of the rational `q`, NaN when `q` is zero: the
product of an infinity with a finite value. -/
def Flt.infTimes (q : ℚ) : Flt :=
  if q = 0 then .nan else if 0 < q then .pinf else .ninf

/-- Multiplication: `0 * Inf` is NaN, otherwise the signs multiply. -/
def Flt.mul : Flt → Flt → Flt
  | .fin a, .fin b => .fin (a * b)
  | .fin a, .pinf => Flt.infTimes a
  | .fin a, .ninf => Flt.infTimes (-a)
  | .pinf, .fin b => Flt.infTimes b
  | .ninf, .fin b => Flt.infTimes (-b)
  | .pinf, .pinf => .pinf
  | .ninf, .ninf => .pinf
  | .pinf, .ninf => .ninf
  | .ninf, .pinf => .ninf
  | .nan, _ => .nan
  | _, .nan => .nan

/-- Division: a finite value over an infinity is 0, `0 / 0` and `Inf / Inf`
are NaN, a nonzero finite value over 0 is an infinity (zero taken as `+0`). -/
def Flt.div : Flt → Flt → Flt
  | .fin a, .fin b => if b = 0 then Flt.infTimes a else .fin (a / b)
  | .fin _, .pinf => .fin 0
  | .fin _, .ninf => .fin 0
  | .pinf, .fin b => if 0 ≤ b then .pinf else .ninf
  | .ninf, .fin b => if 0 ≤ b then .ninf else .pinf
  | .pinf, .pinf => .nan
  | .pinf, .ninf => .nan
  | .ninf, .pinf => .nan
  | .ninf, .ninf => .nan
  | .nan, _ => .nan
  | _, .nan => .nan

instance : Zero Flt := ⟨.fin 0⟩

instance : One Flt := ⟨.fin 1⟩

instance : NatCast Flt := ⟨fun n => .fin n⟩

instance : Neg Flt := ⟨Flt.neg⟩

instance : Add Flt := ⟨Flt.add⟩

instance : Sub Flt := ⟨Flt.sub⟩

instance : Mul Flt := ⟨Flt.mul⟩

instance : Div Flt := ⟨Flt.div⟩

/-- The C library at the arguments the examples use: `sqrtf 0 = 0`,
`sqrtf 1 = 1`, `sqrtf (+Inf) = +Inf`, `cosf 0 = 1`, `sinf 0 = 0`, `tanf 0 = 0`.
Every other argument is outside the table and is given NaN. -/
def libmTable : Libm Flt where
  sqrtf := fun x =>
    match x with
    | .fin q => if q = 0 then .fin 0 else if q = 1 then .fin 1 else .nan
    | .pinf => .pinf
    | _ => .nan
  cosf := fun x =>
    match x with
    | .fin q => if q = 0 then .fin 1 else .nan
    | _ => .nan
  sinf := fun x =>
    match x with
    | .fin q => if q = 0 then .fin 0 else .nan
    | _ => .nan
  tanf := fun x =>
    match x with
    | .fin q => if q = 0 then .fin 0 else .nan
    | _ => .nan

/-! ## Matrix product, entry by entry -/

/-- C1: every entry of `mat4Mul A B` is the dot product of the row of `A` with
the column of `B`: entry (row `i`, element `j`) is `vec4Dot (row i of A)
(column j of B)`, the column taking element `j` of each of the rows `a, b, c, d`
of `B`.  It holds whatever addition and multiplication are. -/
theorem mat4Mul_entry {F : Type} [Add F] [Mul F] (A B : mat4 F) (i j : Fin 4) :
    (mat4Mul A B).entry i j = vec4Dot (A.row i) (B.column j) := by
  fin_cases i <;> fin_cases j <;> rfl

/-! ## Algebra of the 4x4 product -/

/-- The product of two matrices applied to a vector is the left factor applied
to the result of the right factor. -/
theorem mat4MulVec4_mat4Mul {F : Type} [CommRing F] (A B : mat4 F) (v : vec4 F) :
    mat4MulVec4 (mat4Mul A B) v = mat4MulVec4 A (mat4MulVec4 B v) := by
  simp only [mat4MulVec4, mat4Mul, vec4Dot, vec4.mk.injEq]
  refine ⟨?_, ?_, ?_, ?_⟩ <;> ring

/-- C2, amended: `mat4Transform` is the product translate · (rotate · scale),
whatever the arithmetic; and in exact arithmetic (a field) applying it to a
point applies the scale first, then the rotation, then the translation. -/
theorem mat4Transform_spec {F : Type} [Zero F] [One F] [Add F] [Sub F] [Mul F] [Div F]
    (L : Libm F) (translation axis : vec3 F) (angle : F) (scale : vec3 F)
    {K : Type} [Field K] (LK : Libm K) (translationK axisK : vec3 K) (angleK : K)
    (scaleK : vec3 K) (p : vec4 K) :
    mat4Transform L translation axis angle scale
        = mat4Mul (mat4Translate translation)
            (mat4Mul (mat4Rotate L axis angle) (mat4ScaleVec3 scale))
      ∧ mat4MulVec4 (mat4Transform LK translationK axisK angleK scaleK) p
        = mat4MulVec4 (mat4Translate translationK)
            (mat4MulVec4 (mat4Rotate LK axisK angleK)
              (mat4MulVec4 (mat4ScaleVec3 scaleK) p)) := by
  refine ⟨rfl, ?_⟩
  show mat4MulVec4 (mat4Mul (mat4Translate translationK)
      (mat4Mul (mat4Rotate LK axisK angleK) (mat4ScaleVec3 scaleK))) p = _
  rw [mat4MulVec4_mat4Mul, mat4MulVec4_mat4Mul]

/-- C9: `mat4Mul` is associative when the scalars form a commutative ring. -/
theorem mat4Mul_assoc {F : Type} [CommRing F] (A B C : mat4 F) :
    mat4Mul (mat4Mul A B) C = mat4Mul A (mat4Mul B C) := by
  simp only [mat4Mul, vec4Dot, mat4.mk.injEq, vec4.mk.injEq]
  refine ⟨⟨?_, ?_, ?_, ?_⟩, ⟨?_, ?_, ?_, ?_⟩, ⟨?_, ?_, ?_, ?_⟩, ⟨?_, ?_, ?_, ?_⟩⟩ <;> ring

/-- C10: transposing twice gives the matrix back, for `mat2`, `mat3` and
`mat4`, and each transpose puts entry (row `j`, element `i`) of the argument at
(row `i`, element `j`) of the result.  No arithmetic is involved. -/
theorem transpose_involution {F : Type} (M2 : mat2 F) (M3 : mat3 F) (M4 : mat4 F) :
    mat2Transpose (mat2Transpose M2) = M2
      ∧ mat3Transpose (mat3Transpose M3) = M3
      ∧ mat4Transpose (mat4Transpose M4) = M4
      ∧ (∀ i j : Fin 2, ((mat2Transpose M2).row i).elements j = (M2.row j).elements i)
      ∧ (∀ i j : Fin 3, ((mat3Transpose M3).row i).elements j = (M3.row j).elements i)
      ∧ (∀ i j : Fin 4, ((mat4Transpose M4).row i).elements j = (M4.row j).elements i) := by
  refine ⟨rfl, rfl, rfl, ?_, ?_, ?_⟩ <;>
    intro i j <;> fin_cases i <;> fin_cases j <;> rfl

/-! ## Rotation -/

/-- A normalized vector has unit squared length, when `sqrtf` squares back to
its argument at the squared length and the length is not zero. -/
theorem vec3Normalize_dot_self {F : Type} [Field F] (L : Libm F) (v : vec3 F)
    (hlen : vec3Length L v ≠ 0)
    (hsqrt : vec3Length L v * vec3Length L v = vec3LengthSq v) :
    vec3Dot (vec3Normalize L v) (vec3Normalize L v) = 1 := by
  simp only [vec3LengthSq, vec3Dot] at hsqrt
  simp only [vec3Normalize, vec3Dot]
  field_simp
  linear_combination -hsqrt

/-- The polynomial identity behind length preservation: with `u` a unit vector
and `c² + s² = 1`, the Rodrigues matrix keeps the sum of squares. -/
theorem rodrigues_sq_sum {F : Type} [Field F] (ux uy uz c s x y z : F)
    (hu : ux * ux + uy * uy + uz * uz = 1) (hcs : c * c + s * s = 1) :
    (((1 - c) * ux * ux + c) * x + ((1 - c) * ux * uy - s * uz) * y
        + ((1 - c) * ux * uz + s * uy) * z) ^ 2
      + (((1 - c) * ux * uy + s * uz) * x + ((1 - c) * uy * uy + c) * y
        + ((1 - c) * uy * uz - s * ux) * z) ^ 2
      + (((1 - c) * ux * uz - s * uy) * x + ((1 - c) * uy * uz + s * ux) * y
        + ((1 - c) * uz * uz + c) * z) ^ 2
      = x ^ 2 + y ^ 2 + z ^ 2 := by
  linear_combination
    ((x ^ 2 + y ^ 2 + z ^ 2) - (ux * x + uy * y + uz * z) ^ 2) * hcs
      + (s ^ 2 * (x ^ 2 + y ^ 2 + z ^ 2)
          + (1 - c) ^ 2 * (ux * x + uy * y + uz * z) ^ 2) * hu

/-- C5: a rotation about an axis of nonzero length keeps the length of every
vector, when `sqrtf` squares back to the squared length of the axis and
`cos² θ + sin² θ = 1`. -/
theorem mat4Rotate_preserves_length {F : Type} [Field F] (L : Libm F)
    (axis : vec3 F) (θ : F) (v : vec4 F)
    (hlen : vec3Length L axis ≠ 0)
    (hsqrt : vec3Length L axis * vec3Length L axis = vec3LengthSq axis)
    (htrig : L.cosf θ * L.cosf θ + L.sinf θ * L.sinf θ = 1) :
    vec4Length L (mat4MulVec4 (mat4Rotate L axis θ) v) = vec4Length L v := by
  have hu := vec3Normalize_dot_self L axis hlen hsqrt
  simp only [vec3Dot] at hu
  have key := rodrigues_sq_sum (vec3Normalize L axis).x (vec3Normalize L axis).y
    (vec3Normalize L axis).z (L.cosf θ) (L.sinf θ) v.x v.y v.z hu htrig
  simp only [vec4Length, mat4MulVec4, mat4Rotate, mat4Identity, vec4Dot]
  congr 1
  linear_combination key

/-- Witness for C5, over the reals: the axis `(3, 0, 4)` of length 5, the
angle 1 and the vector `(1, 2, 3, 4)`. -/
theorem mat4Rotate_preserves_length_witness :
    vec3Length (Libm.mk Real.sqrt Real.cos Real.sin Real.tan) (⟨3, 0, 4⟩ : vec3 ℝ) ≠ 0
      ∧ vec4Length (Libm.mk Real.sqrt Real.cos Real.sin Real.tan)
          (mat4MulVec4 (mat4Rotate (Libm.mk Real.sqrt Real.cos Real.sin Real.tan)
            ⟨3, 0, 4⟩ 1) ⟨1, 2, 3, 4⟩)
        = vec4Length (Libm.mk Real.sqrt Real.cos Real.sin Real.tan) ⟨1, 2, 3, 4⟩ := by
  have hlen : vec3Length (Libm.mk Real.sqrt Real.cos Real.sin Real.tan)
      (⟨3, 0, 4⟩ : vec3 ℝ) ≠ 0 := by
    simp only [vec3Length]
    exact Real.sqrt_ne_zero'.mpr (by norm_num)
  refine ⟨hlen, mat4Rotate_preserves_length _ _ 1 _ hlen ?_ ?_⟩
  · simp only [vec3Length, vec3LengthSq, vec3Dot]
    exact Real.mul_self_sqrt (by norm_num)
  · have h := Real.cos_sq_add_sin_sq 1
    simp only [sq] at h
    exact h

/-! ## Rotation by an angle whose cosine is 1 and sine is 0 -/

/-- When `cosf θ = 1` and `sinf θ = 0` every term of the Rodrigues block that
carries the axis vanishes, and `mat4Rotate` is the identity. -/
theorem mat4Rotate_of_cos_one {F : Type} [Field F] (L : Libm F) (axis : vec3 F) (θ : F)
    (hcos : L.cosf θ = 1) (hsin : L.sinf θ = 0) :
    mat4Rotate L axis θ = mat4Identity := by
  simp [mat4Rotate, mat4Identity, hcos, hsin]

/-- C13: over the reals, with the real cosine and sine, rotation by the full
turn `2π` about an axis of nonzero length is the identity matrix. -/
theorem mat4Rotate_two_pi (axis : vec3 ℝ)
    (_hlen : vec3Length (Libm.mk Real.sqrt Real.cos Real.sin Real.tan) axis ≠ 0) :
    mat4Rotate (Libm.mk Real.sqrt Real.cos Real.sin Real.tan) axis (2 * Real.pi)
      = mat4Identity :=
  mat4Rotate_of_cos_one _ axis (2 * Real.pi) Real.cos_two_pi Real.sin_two_pi

/-! ## Normalization -/

/-- C14: a normalized vector of nonzero length has length 1, in dimensions 2,
3 and 4, when `sqrtf` squares back to the squared length of the vector and
`sqrtf 1 = 1`; `normalize v` is `v` scaled by `1 / length v` and `length v` is
`sqrtf (dot v v)`. -/
theorem normalize_unit_length {F : Type} [Field F] (L : Libm F)
    (v2 : vec2 F) (v3 : vec3 F) (v4 : vec4 F)
    (hone : L.sqrtf 1 = 1)
    (hlen2 : vec2Length L v2 ≠ 0)
    (hsqrt2 : vec2Length L v2 * vec2Length L v2 = vec2LengthSq v2)
    (hlen3 : vec3Length L v3 ≠ 0)
    (hsqrt3 : vec3Length L v3 * vec3Length L v3 = vec3LengthSq v3)
    (hlen4 : vec4Length L v4 ≠ 0)
    (hsqrt4 : vec4Length L v4 * vec4Length L v4 = vec4LengthSq v4) :
    (vec2Length L (vec2Normalize L v2) = 1
        ∧ vec3Length L (vec3Normalize L v3) = 1
        ∧ vec4Length L (vec4Normalize L v4) = 1)
      ∧ (vec2Normalize L v2 = vec2Scale v2 (1 / vec2Length L v2)
        ∧ vec3Normalize L v3 = vec3Scale v3 (1 / vec3Length L v3)
        ∧ vec4Normalize L v4 = vec4Scale v4 (1 / vec4Length L v4))
      ∧ (vec2Length L v2 = L.sqrtf (vec2Dot v2 v2)
        ∧ vec3Length L v3 = L.sqrtf (vec3Dot v3 v3)
        ∧ vec4Length L v4 = L.sqrtf (vec4Dot v4 v4)) := by
  refine ⟨⟨?_, ?_, ?_⟩, ⟨rfl, rfl, rfl⟩, ⟨rfl, rfl, rfl⟩⟩
  · have hdot : vec2Dot (vec2Normalize L v2) (vec2Normalize L v2) = 1 := by
      simp only [vec2LengthSq, vec2Dot] at hsqrt2
      simp only [vec2Normalize, vec2Dot]
      field_simp
      linear_combination -hsqrt2
    show L.sqrtf (vec2Dot (vec2Normalize L v2) (vec2Normalize L v2)) = 1
    rw [hdot, hone]
  · have hdot := vec3Normalize_dot_self L v3 hlen3 hsqrt3
    show L.sqrtf (vec3Dot (vec3Normalize L v3) (vec3Normalize L v3)) = 1
    rw [hdot, hone]
  · have hdot : vec4Dot (vec4Normalize L v4) (vec4Normalize L v4) = 1 := by
      simp only [vec4LengthSq, vec4Dot] at hsqrt4
      simp only [vec4Normalize, vec4Dot]
      field_simp
      linear_combination -hsqrt4
    show L.sqrtf (vec4Dot (vec4Normalize L v4) (vec4Normalize L v4)) = 1
    rw [hdot, hone]

/-! ## Cross products -/

/-- C15: the 3D cross product is
`(a.y·b.z - a.z·b.y, a.z·b.x - a.x·b.z, a.x·b.y - a.y·b.x)` and swapping its
arguments negates it: `vec3Cross a b = vec3Scale (vec3Cross b a) (-1)`. -/
theorem vec3Cross_anticomm {F : Type} [CommRing F] (a b : vec3 F) :
    vec3Cross a b = vec3Scale (vec3Cross b a) (-1)
      ∧ vec3Cross a b
        = ⟨a.y * b.z - a.z * b.y, a.z * b.x - a.x * b.z, a.x * b.y - a.y * b.x⟩ := by
  refine ⟨?_, rfl⟩
  simp only [vec3Cross, vec3Scale, vec3.mk.injEq]
  refine ⟨?_, ?_, ?_⟩ <;> ring

/-- C16: the 2D cross is the scalar `a.x·b.y - a.y·b.x`; it is `1` on
`(1,0), (0,1)`, `-1` on `(0,1), (1,0)`, and swapping its arguments negates it. -/
theorem vec2Cross_spec {F : Type} [CommRing F] (a b : vec2 F) :
    vec2Cross a b = a.x * b.y - a.y * b.x
      ∧ vec2Cross (⟨1, 0⟩ : vec2 F) ⟨0, 1⟩ = 1
      ∧ vec2Cross (⟨0, 1⟩ : vec2 F) ⟨1, 0⟩ = -1
      ∧ vec2Cross a b = -vec2Cross b a := by
  refine ⟨rfl, ?_, ?_, ?_⟩
  · simp [vec2Cross]
  · simp [vec2Cross]
  · simp only [vec2Cross]
    ring

/-! ## Widening, composition, the fixed axis -/

/-- C18: `mat3ToMat4 m` carries the entries of `m` in its upper-left 3x3 block
and has row 3 and column 3 of the 4x4 identity; `mat2ToMat4 m` carries the
entries of `m` in its upper-left 2x2 block and has rows 2, 3 and columns 2, 3
of the identity; both send the identity to the identity. -/
theorem widen_to_mat4_spec {F : Type} [Zero F] [One F] (m3 : mat3 F) (m2 : mat2 F) :
    mat3ToMat4 m3
        = ⟨⟨m3.a.x, m3.a.y, m3.a.z, 0⟩, ⟨m3.b.x, m3.b.y, m3.b.z, 0⟩,
           ⟨m3.c.x, m3.c.y, m3.c.z, 0⟩, ⟨0, 0, 0, 1⟩⟩
      ∧ (∀ i j : Fin 3,
          (mat3ToMat4 m3).entry (Fin.castSucc i) (Fin.castSucc j) = (m3.row i).elements j)
      ∧ (∀ k : Fin 4,
          (mat3ToMat4 m3).entry 3 k = (mat4Identity : mat4 F).entry 3 k
            ∧ (mat3ToMat4 m3).entry k 3 = (mat4Identity : mat4 F).entry k 3)
      ∧ mat2ToMat4 m2
        = ⟨⟨m2.a.x, m2.a.y, 0, 0⟩, ⟨m2.b.x, m2.b.y, 0, 0⟩, ⟨0, 0, 1, 0⟩, ⟨0, 0, 0, 1⟩⟩
      ∧ (∀ i j : Fin 2,
          (mat2ToMat4 m2).entry (Fin.castSucc (Fin.castSucc i)) (Fin.castSucc (Fin.castSucc j))
            = (m2.row i).elements j)
      ∧ (∀ k : Fin 4,
          (mat2ToMat4 m2).entry 2 k = (mat4Identity : mat4 F).entry 2 k
            ∧ (mat2ToMat4 m2).entry 3 k = (mat4Identity : mat4 F).entry 3 k
            ∧ (mat2ToMat4 m2).entry k 2 = (mat4Identity : mat4 F).entry k 2
            ∧ (mat2ToMat4 m2).entry k 3 = (mat4Identity : mat4 F).entry k 3)
      ∧ mat3ToMat4 (mat3Identity : mat3 F) = mat4Identity
      ∧ mat2ToMat4 (mat2Identity : mat2 F) = mat4Identity := by
  refine ⟨rfl, ?_, ?_, rfl, ?_, ?_, rfl, rfl⟩
  · intro i j
    fin_cases i <;> fin_cases j <;> rfl
  · intro k
    fin_cases k <;> exact ⟨rfl, rfl⟩
  · intro i j
    fin_cases i <;> fin_cases j <;> rfl
  · intro k
    fin_cases k <;> exact ⟨rfl, rfl, rfl, rfl⟩

/-- C19: a product of matrices acts on a vector as the composition of its
factors, the right-hand factor first:
`mat4MulVec4 (mat4Mul A B) v = mat4MulVec4 A (mat4MulVec4 B v)`. -/
theorem mat4Mul_acts_as_composition {F : Type} [CommRing F] (A B : mat4 F) (v : vec4 F) :
    mat4MulVec4 (mat4Mul A B) v = mat4MulVec4 A (mat4MulVec4 B v) := by
  obtain ⟨x, y, z, w⟩ := v
  simp only [mat4MulVec4, mat4Mul, vec4Dot, vec4.mk.injEq]
  refine ⟨?_, ?_, ?_, ?_⟩
  · ring
  · ring
  · ring
  · ring

/-- C20: a rotation about an axis of nonzero length leaves the axis, taken as
the direction `(axis.x, axis.y, axis.z, 0)`, where it is, for every angle, when
`sqrtf` squares back to the squared length of the axis. -/
theorem mat4Rotate_fixes_axis {F : Type} [Field F] (L : Libm F) (axis : vec3 F) (θ : F)
    (hlen : vec3Length L axis ≠ 0)
    (hsqrt : vec3Length L axis * vec3Length L axis = vec3LengthSq axis) :
    mat4MulVec4 (mat4Rotate L axis θ) ⟨axis.x, axis.y, axis.z, 0⟩
      = ⟨axis.x, axis.y, axis.z, 0⟩ := by
  simp only [vec3LengthSq, vec3Dot] at hsqrt
  have hk : 1 / vec3Length L axis * (1 / vec3Length L axis)
      * (axis.x * axis.x + axis.y * axis.y + axis.z * axis.z) = 1 := by
    rw [← hsqrt]
    field_simp
  simp only [mat4MulVec4, mat4Rotate, mat4Identity, vec3Normalize, vec4Dot, vec4.mk.injEq]
  refine ⟨?_, ?_, ?_, ?_⟩
  · linear_combination ((1 - L.cosf θ) * axis.x) * hk
  · linear_combination ((1 - L.cosf θ) * axis.y) * hk
  · linear_combination ((1 - L.cosf θ) * axis.z) * hk
  · ring

/-! ## Instances over the reals -/

/-- Over the reals the axis `(3, 0, 4)` has nonzero length. -/
theorem real_axis_length_ne_zero :
    vec3Length (Libm.mk Real.sqrt Real.cos Real.sin Real.tan) (⟨3, 0, 4⟩ : vec3 ℝ) ≠ 0 := by
  simp only [vec3Length]
  exact Real.sqrt_ne_zero'.mpr (by norm_num)

/-- Over the reals the length of the axis `(3, 0, 4)` squares back to its
squared length. -/
theorem real_axis_length_sq :
    vec3Length (Libm.mk Real.sqrt Real.cos Real.sin Real.tan) (⟨3, 0, 4⟩ : vec3 ℝ)
        * vec3Length (Libm.mk Real.sqrt Real.cos Real.sin Real.tan) (⟨3, 0, 4⟩ : vec3 ℝ)
      = vec3LengthSq (⟨3, 0, 4⟩ : vec3 ℝ) := by
  simp only [vec3Length, vec3LengthSq, vec3Dot]
  exact Real.mul_self_sqrt (by norm_num)

/-- Witness for C13: the axis `(3, 0, 4)`. -/
theorem mat4Rotate_two_pi_witness :
    vec3Length (Libm.mk Real.sqrt Real.cos Real.sin Real.tan) (⟨3, 0, 4⟩ : vec3 ℝ) ≠ 0
      ∧ mat4Rotate (Libm.mk Real.sqrt Real.cos Real.sin Real.tan) ⟨3, 0, 4⟩ (2 * Real.pi)
        = mat4Identity :=
  ⟨real_axis_length_ne_zero, mat4Rotate_two_pi ⟨3, 0, 4⟩ real_axis_length_ne_zero⟩

/-- Witness for C14, over the reals: the vectors `(3, 4)`, `(3, 0, 4)` and
`(1, 1, 1, 1)`. -/
theorem normalize_unit_length_witness :
    vec2Length (Libm.mk Real.sqrt Real.cos Real.sin Real.tan) (⟨3, 4⟩ : vec2 ℝ) ≠ 0
      ∧ vec3Length (Libm.mk Real.sqrt Real.cos Real.sin Real.tan) (⟨3, 0, 4⟩ : vec3 ℝ) ≠ 0
      ∧ vec4Length (Libm.mk Real.sqrt Real.cos Real.sin Real.tan) (⟨1, 1, 1, 1⟩ : vec4 ℝ) ≠ 0
      ∧ vec2Length (Libm.mk Real.sqrt Real.cos Real.sin Real.tan)
          (vec2Normalize (Libm.mk Real.sqrt Real.cos Real.sin Real.tan) ⟨3, 4⟩) = 1
      ∧ vec3Length (Libm.mk Real.sqrt Real.cos Real.sin Real.tan)
          (vec3Normalize (Libm.mk Real.sqrt Real.cos Real.sin Real.tan) ⟨3, 0, 4⟩) = 1
      ∧ vec4Length (Libm.mk Real.sqrt Real.cos Real.sin Real.tan)
          (vec4Normalize (Libm.mk Real.sqrt Real.cos Real.sin Real.tan) ⟨1, 1, 1, 1⟩) = 1 := by
  have h2 : vec2Length (Libm.mk Real.sqrt Real.cos Real.sin Real.tan)
      (⟨3, 4⟩ : vec2 ℝ) ≠ 0 := by
    simp only [vec2Length]
    exact Real.sqrt_ne_zero'.mpr (by norm_num)
  have h4 : vec4Length (Libm.mk Real.sqrt Real.cos Real.sin Real.tan)
      (⟨1, 1, 1, 1⟩ : vec4 ℝ) ≠ 0 := by
    simp only [vec4Length]
    exact Real.sqrt_ne_zero'.mpr (by norm_num)
  have hs2 : vec2Length (Libm.mk Real.sqrt Real.cos Real.sin Real.tan) (⟨3, 4⟩ : vec2 ℝ)
      * vec2Length (Libm.mk Real.sqrt Real.cos Real.sin Real.tan) (⟨3, 4⟩ : vec2 ℝ)
      = vec2LengthSq (⟨3, 4⟩ : vec2 ℝ) := by
    simp only [vec2Length, vec2LengthSq, vec2Dot]
    exact Real.mul_self_sqrt (by norm_num)
  have hs4 : vec4Length (Libm.mk Real.sqrt Real.cos Real.sin Real.tan) (⟨1, 1, 1, 1⟩ : vec4 ℝ)
      * vec4Length (Libm.mk Real.sqrt Real.cos Real.sin Real.tan) (⟨1, 1, 1, 1⟩ : vec4 ℝ)
      = vec4LengthSq (⟨1, 1, 1, 1⟩ : vec4 ℝ) := by
    simp only [vec4Length, vec4LengthSq, vec4Dot]
    exact Real.mul_self_sqrt (by norm_num)
  have h := (normalize_unit_length (Libm.mk Real.sqrt Real.cos Real.sin Real.tan)
    ⟨3, 4⟩ ⟨3, 0, 4⟩ ⟨1, 1, 1, 1⟩ Real.sqrt_one h2 hs2
    real_axis_length_ne_zero real_axis_length_sq h4 hs4).1
  exact ⟨h2, real_axis_length_ne_zero, h4, h.1, h.2.1, h.2.2⟩

/-- Witness for C20, over the reals: the axis `(3, 0, 4)` and the angle 1. -/
theorem mat4Rotate_fixes_axis_witness :
    vec3Length (Libm.mk Real.sqrt Real.cos Real.sin Real.tan) (⟨3, 0, 4⟩ : vec3 ℝ) ≠ 0
      ∧ mat4MulVec4 (mat4Rotate (Libm.mk Real.sqrt Real.cos Real.sin Real.tan) ⟨3, 0, 4⟩ 1)
          ⟨3, 0, 4, 0⟩
        = ⟨3, 0, 4, 0⟩ :=
  ⟨real_axis_length_ne_zero,
    mat4Rotate_fixes_axis (Libm.mk Real.sqrt Real.cos Real.sin Real.tan) ⟨3, 0, 4⟩ 1
      real_axis_length_ne_zero real_axis_length_sq⟩

/-! ## The carrier `Flt` satisfies the rounding-free facts -/

theorem Flt.zero_def : (0 : Flt) = Flt.fin 0 := rfl

theorem Flt.one_def : (1 : Flt) = Flt.fin 1 := rfl

theorem Flt.neg_def (a : Flt) : -a = Flt.neg a := rfl

theorem Flt.add_def (a b : Flt) : a + b = Flt.add a b := rfl

theorem Flt.sub_def (a b : Flt) : a - b = Flt.add a (Flt.neg b) := rfl

theorem Flt.mul_def (a b : Flt) : a * b = Flt.mul a b := rfl

theorem Flt.div_def (a b : Flt) : a / b = Flt.div a b := rfl

/-- The product of an infinity with a finite value is never finite. -/
theorem Flt.infTimes_not_finite (q : ℚ) : ¬ (Flt.infTimes q).isFinite := by
  unfold Flt.infTimes
  split_ifs <;> simp [Flt.isFinite]

/-- The carrier `Flt` satisfies the rounding-free facts of IEEE-754. -/
theorem Flt.ieee : IEEE Flt.isFinite where
  finite_zero := trivial
  finite_one := trivial
  zero_mul := by
    intro a h
    cases a <;>
      simp_all [Flt.isFinite, Flt.zero_def, Flt.mul_def, Flt.mul]
  mul_zero := by
    intro a h
    cases a <;>
      simp_all [Flt.isFinite, Flt.zero_def, Flt.mul_def, Flt.mul]
  one_mul := by
    intro a
    cases a <;> simp [Flt.one_def, Flt.mul_def, Flt.mul, Flt.infTimes]
  mul_one := by
    intro a
    cases a <;> simp [Flt.one_def, Flt.mul_def, Flt.mul, Flt.infTimes]
  add_zero := by
    intro a
    cases a <;> simp [Flt.zero_def, Flt.add_def, Flt.add]
  zero_add := by
    intro a
    cases a <;> simp [Flt.zero_def, Flt.add_def, Flt.add]
  sub_zero := by
    intro a
    cases a <;> simp [Flt.zero_def, Flt.sub_def, Flt.add, Flt.neg]
  zero_sub := by
    intro a
    cases a <;> simp [Flt.zero_def, Flt.sub_def, Flt.neg_def, Flt.add, Flt.neg]
  sub_self := by
    intro a h
    cases a <;>
      simp_all [Flt.isFinite, Flt.zero_def, Flt.sub_def, Flt.add, Flt.neg]
  neg_one_mul := by
    intro a
    cases a <;>
      simp [Flt.one_def, Flt.neg_def, Flt.mul_def, Flt.mul, Flt.neg, Flt.infTimes]
  one_div_one := by
    simp [Flt.one_def, Flt.div_def, Flt.div]
  finite_neg := by
    intro a h
    cases a <;> simp_all [Flt.isFinite, Flt.neg_def, Flt.neg]
  finite_of_add := by
    intro a b h
    cases a <;> cases b <;> simp_all [Flt.isFinite, Flt.add_def, Flt.add]
  finite_of_sub := by
    intro a b h
    cases a <;> cases b <;> simp_all [Flt.isFinite, Flt.sub_def, Flt.add, Flt.neg]
  finite_of_mul := by
    intro a b h
    cases a <;> cases b <;>
      first
        | exact ⟨trivial, trivial⟩
        | exact absurd h (Flt.infTimes_not_finite _)
        | exact h.elim

/-- C7, amended: for a matrix whose sixteen entries are finite, the identity
matrix is a left and a right unit of `mat4Mul`.  Only rounding-free facts of
IEEE-754 are used, so the statement holds for binary32 as for exact
arithmetic. -/
theorem mat4Mul_identity_finite {F : Type} [Zero F] [One F] [Add F] [Sub F] [Mul F] [Div F]
    [Neg F] (finite : F → Prop) (h : IEEE finite) (M : mat4 F) (hM : M.allFinite finite) :
    mat4Mul mat4Identity M = M ∧ mat4Mul M mat4Identity = M := by
  obtain ⟨⟨a1, a2, a3, a4⟩, ⟨b1, b2, b3, b4⟩, ⟨c1, c2, c3, c4⟩, ⟨d1, d2, d3, d4⟩⟩ := M
  obtain ⟨⟨ha1, ha2, ha3, ha4⟩, ⟨hb1, hb2, hb3, hb4⟩, ⟨hc1, hc2, hc3, hc4⟩,
    ⟨hd1, hd2, hd3, hd4⟩⟩ := hM
  simp only at ha1 ha2 ha3 ha4 hb1 hb2 hb3 hb4 hc1 hc2 hc3 hc4 hd1 hd2 hd3 hd4
  constructor <;>
    simp only [mat4Mul, mat4Identity, vec4Dot, h.one_mul, h.mul_one, h.add_zero, h.zero_add,
      h.zero_mul _ ha1, h.zero_mul _ ha2, h.zero_mul _ ha3, h.zero_mul _ ha4,
      h.zero_mul _ hb1, h.zero_mul _ hb2, h.zero_mul _ hb3, h.zero_mul _ hb4,
      h.zero_mul _ hc1, h.zero_mul _ hc2, h.zero_mul _ hc3, h.zero_mul _ hc4,
      h.zero_mul _ hd1, h.zero_mul _ hd2, h.zero_mul _ hd3, h.zero_mul _ hd4,
      h.mul_zero _ ha1, h.mul_zero _ ha2, h.mul_zero _ ha3, h.mul_zero _ ha4,
      h.mul_zero _ hb1, h.mul_zero _ hb2, h.mul_zero _ hb3, h.mul_zero _ hb4,
      h.mul_zero _ hc1, h.mul_zero _ hc2, h.mul_zero _ hc3, h.mul_zero _ hc4,
      h.mul_zero _ hd1, h.mul_zero _ hd2, h.mul_zero _ hd3, h.mul_zero _ hd4]

/-- C8, amended: for a vector whose four components are finite, the identity
matrix applied to it gives the vector back.  Only rounding-free facts of
IEEE-754 are used. -/
theorem mat4MulVec4_identity_finite {F : Type} [Zero F] [One F] [Add F] [Sub F] [Mul F]
    [Div F] [Neg F] (finite : F → Prop) (h : IEEE finite) (v : vec4 F)
    (hv : v.allFinite finite) :
    mat4MulVec4 mat4Identity v = v := by
  obtain ⟨x, y, z, w⟩ := v
  obtain ⟨hx, hy, hz, hw⟩ := hv
  simp only at hx hy hz hw
  simp only [mat4MulVec4, mat4Identity, vec4Dot, h.one_mul, h.add_zero, h.zero_add,
    h.zero_mul _ hx, h.zero_mul _ hy, h.zero_mul _ hz, h.zero_mul _ hw]

/-! ## Translation and clip-space w on finite values -/

/-- C6, amended: `mat4Translate v` is the identity with `v.x, v.y, v.z` in
element `w` of the rows `a, b, c`, whatever the arithmetic; for finite
`x, y, z` it sends the point `(x, y, z, 1)` to `(x + v.x, y + v.y, z + v.z, 1)`,
and when `v` is finite too it leaves the direction `(x, y, z, 0)` as it is.
Only rounding-free facts of IEEE-754 are used. -/
theorem mat4Translate_spec {F : Type} [Zero F] [One F] [Add F] [Sub F] [Mul F] [Div F]
    [Neg F] (finite : F → Prop) (h : IEEE finite) (v : vec3 F) (x y z : F)
    (hx : finite x) (hy : finite y) (hz : finite z) :
    mat4Translate v
        = ⟨⟨1, 0, 0, v.x⟩, ⟨0, 1, 0, v.y⟩, ⟨0, 0, 1, v.z⟩, ⟨0, 0, 0, 1⟩⟩
      ∧ mat4MulVec4 (mat4Translate v) ⟨x, y, z, 1⟩ = ⟨x + v.x, y + v.y, z + v.z, 1⟩
      ∧ (v.allFinite finite →
          mat4MulVec4 (mat4Translate v) ⟨x, y, z, 0⟩ = ⟨x, y, z, 0⟩) := by
  refine ⟨rfl, ?_, ?_⟩
  · simp only [mat4MulVec4, mat4Translate, mat4Identity, vec4Dot, h.one_mul, h.mul_one,
      h.add_zero, h.zero_add, h.zero_mul _ hx, h.zero_mul _ hy, h.zero_mul _ hz]
  · rintro ⟨hvx, hvy, hvz⟩
    simp only [mat4MulVec4, mat4Translate, mat4Identity, vec4Dot, h.one_mul, h.mul_one,
      h.add_zero, h.zero_add, h.zero_mul _ hx, h.zero_mul _ hy, h.zero_mul _ hz,
      h.mul_zero _ hvx, h.mul_zero _ hvy, h.mul_zero _ hvz, h.mul_zero _ h.finite_one]

/-- C17, amended: for a vector whose `x`, `y` and `w` are finite, the `w`
component of `mat4Perspective` applied to it is `-v.z`, whatever the four
projection parameters are.  Only rounding-free facts of IEEE-754 are used. -/
theorem mat4Perspective_w_clip {F : Type} [Zero F] [One F] [NatCast F] [Add F] [Sub F]
    [Mul F] [Div F] [Neg F] (finite : F → Prop) (h : IEEE finite) (L : Libm F)
    (fovDeg aspectRatio nearPlane farPlane : F) (v : vec4 F)
    (hx : finite v.x) (hy : finite v.y) (hw : finite v.w) :
    (mat4MulVec4 (mat4Perspective L fovDeg aspectRatio nearPlane farPlane) v).w = -v.z := by
  have hd : (mat4Perspective L fovDeg aspectRatio nearPlane farPlane).d = ⟨0, 0, -1, 0⟩ := rfl
  show vec4Dot (mat4Perspective L fovDeg aspectRatio nearPlane farPlane).d v = -v.z
  rw [hd]
  simp only [vec4Dot, h.zero_mul _ hx, h.zero_mul _ hy, h.zero_mul _ hw, h.neg_one_mul,
    h.add_zero, h.zero_add]

/-! ## Rotation by an angle of cosine 1 and sine 0, on finite values -/

/-- When `cosf θ = 1`, `sinf θ = 0` and the normalized axis has finite
components, `mat4Rotate` is the identity: `1 - 1 = 0` and `0 * a = 0` for
finite `a` remove every term that carries the axis. -/
theorem mat4Rotate_of_cos_one_finite {F : Type} [Zero F] [One F] [Add F] [Sub F] [Mul F]
    [Div F] [Neg F] (finite : F → Prop) (h : IEEE finite) (L : Libm F) (axis : vec3 F) (θ : F)
    (hcos : L.cosf θ = 1) (hsin : L.sinf θ = 0)
    (hu : (vec3Normalize L axis).allFinite finite) :
    mat4Rotate L axis θ = mat4Identity := by
  obtain ⟨hux, huy, huz⟩ := hu
  simp only [mat4Rotate, mat4Identity, hcos, hsin, h.sub_self _ h.finite_one,
    h.zero_mul _ hux, h.zero_mul _ huy, h.zero_mul _ huz, h.add_zero, h.zero_add, h.sub_zero]

/-- C12, amended: rotation by the angle 0 is the identity matrix for every axis
whose normalization `vec3Normalize axis` has finite components, given
`cosf 0 = 1` and `sinf 0 = 0`.  Only rounding-free facts of IEEE-754 are
used. -/
theorem mat4Rotate_zero {F : Type} [Zero F] [One F] [Add F] [Sub F] [Mul F] [Div F] [Neg F]
    (finite : F → Prop) (h : IEEE finite) (L : Libm F) (axis : vec3 F)
    (hcos : L.cosf 0 = 1) (hsin : L.sinf 0 = 0)
    (hu : (vec3Normalize L axis).allFinite finite) :
    mat4Rotate L axis 0 = mat4Identity :=
  mat4Rotate_of_cos_one_finite finite h L axis 0 hcos hsin hu

/-- The point computation behind C11: with the rotation factor equal to the
identity, the translate · (rotate · scale) product sends `(x, y, z, 1)` to
`(s.x·x + t.x, s.y·y + t.y, s.z·z + t.z, 1)`. -/
theorem mat4Transform_zero_angle_point {F : Type} [Zero F] [One F] [Add F] [Sub F] [Mul F]
    [Div F] [Neg F] (finite : F → Prop) (h : IEEE finite) (L : Libm F) (t axis s : vec3 F)
    (x y z : F) (hcos : L.cosf 0 = 1) (hsin : L.sinf 0 = 0)
    (hu : (vec3Normalize L axis).allFinite finite)
    (ht : t.allFinite finite) (hs : s.allFinite finite)
    (hx : finite x) (hy : finite y) (hz : finite z) :
    mat4MulVec4 (mat4Transform L t axis 0 s) ⟨x, y, z, 1⟩
      = ⟨s.x * x + t.x, s.y * y + t.y, s.z * z + t.z, 1⟩ := by
  have hR := mat4Rotate_of_cos_one_finite finite h L axis 0 hcos hsin hu
  obtain ⟨htx, hty, htz⟩ := ht
  obtain ⟨hsx, hsy, hsz⟩ := hs
  simp only [mat4Transform, hR, mat4MulVec4, mat4Mul, mat4Translate, mat4ScaleVec3,
    mat4Identity, vec4Dot, h.one_mul, h.mul_one, h.add_zero, h.zero_add,
    h.zero_mul _ h.finite_zero, h.zero_mul _ h.finite_one,
    h.zero_mul _ hsx, h.zero_mul _ hsy, h.zero_mul _ hsz,
    h.mul_zero _ htx, h.mul_zero _ hty, h.mul_zero _ htz,
    h.zero_mul _ hx, h.zero_mul _ hy, h.zero_mul _ hz]

/-- C11, amended: with rotation angle 0, `cosf 0 = 1`, `sinf 0 = 0`, a
normalized axis with finite components and finite `t`, `s`, `x`, `y`, `z`,
`mat4Transform t axis 0 s` sends the point `(x, y, z, 1)` to
`(s.x·x + t.x, s.y·y + t.y, s.z·z + t.z, 1)`: the scale acts before the
translation.  Only rounding-free facts of IEEE-754 are used.  In the carrier
`Flt`, for `t = (1,2,3)`, `s = (2,2,2)` and the point `(1,0,0)` the result is
`(3, 2, 3, 1)`. -/
theorem mat4Transform_zero_angle {F : Type} [Zero F] [One F] [Add F] [Sub F] [Mul F] [Div F]
    [Neg F] (finite : F → Prop) (h : IEEE finite) (L : Libm F) (t axis s : vec3 F) (x y z : F)
    (hcos : L.cosf 0 = 1) (hsin : L.sinf 0 = 0)
    (hu : (vec3Normalize L axis).allFinite finite)
    (ht : t.allFinite finite) (hs : s.allFinite finite)
    (hx : finite x) (hy : finite y) (hz : finite z)
    (L0 : Libm Flt) (axis0 : vec3 Flt)
    (hcos0 : L0.cosf 0 = 1) (hsin0 : L0.sinf 0 = 0)
    (hu0 : (vec3Normalize L0 axis0).allFinite Flt.isFinite) :
    mat4MulVec4 (mat4Transform L t axis 0 s) ⟨x, y, z, 1⟩
        = ⟨s.x * x + t.x, s.y * y + t.y, s.z * z + t.z, 1⟩
      ∧ mat4MulVec4
          (mat4Transform L0 ⟨Flt.fin 1, Flt.fin 2, Flt.fin 3⟩ axis0 0
            ⟨Flt.fin 2, Flt.fin 2, Flt.fin 2⟩)
          ⟨Flt.fin 1, Flt.fin 0, Flt.fin 0, Flt.fin 1⟩
        = ⟨Flt.fin 3, Flt.fin 2, Flt.fin 3, Flt.fin 1⟩ := by
  refine ⟨mat4Transform_zero_angle_point finite h L t axis s x y z hcos hsin hu ht hs hx hy hz,
    ?_⟩
  refine (mat4Transform_zero_angle_point Flt.isFinite Flt.ieee L0
    ⟨Flt.fin 1, Flt.fin 2, Flt.fin 3⟩ axis0 ⟨Flt.fin 2, Flt.fin 2, Flt.fin 2⟩
    (Flt.fin 1) (Flt.fin 0) (Flt.fin 0) hcos0 hsin0 hu0
    ⟨trivial, trivial, trivial⟩ ⟨trivial, trivial, trivial⟩ trivial trivial trivial).trans ?_
  simp only [Flt.mul_def, Flt.add_def, Flt.one_def, Flt.mul, Flt.add]
  norm_num

/-! ## Examples with a special value -/

theorem libmTable_sqrtf_one : libmTable.sqrtf (Flt.fin 1) = Flt.fin 1 := by
  simp [libmTable]

theorem libmTable_sqrtf_pinf : libmTable.sqrtf Flt.pinf = Flt.pinf := rfl

theorem libmTable_cosf_zero : libmTable.cosf (Flt.fin 0) = Flt.fin 1 := by
  simp [libmTable]

theorem libmTable_sinf_zero : libmTable.sinf (Flt.fin 0) = Flt.fin 0 := by
  simp [libmTable]

/-- C7, counterexample: with `+Inf` in entry (a, x) of `M`, the product `I · M`
has a NaN at (b, x), where `M` has 4, and the product `M · I` has a NaN at
(a, y), where `M` has 1; neither product is `M`. -/
theorem mat4Mul_identity_counterexample :
    (mat4Mul mat4Identity
        (⟨⟨Flt.pinf, Flt.fin 1, Flt.fin 2, Flt.fin 3⟩,
          ⟨Flt.fin 4, Flt.fin 5, Flt.fin 6, Flt.fin 7⟩,
          ⟨Flt.fin 8, Flt.fin 9, Flt.fin 10, Flt.fin 11⟩,
          ⟨Flt.fin 12, Flt.fin 13, Flt.fin 14, Flt.fin 15⟩⟩ : mat4 Flt)).b.x = Flt.nan
      ∧ (mat4Mul
          (⟨⟨Flt.pinf, Flt.fin 1, Flt.fin 2, Flt.fin 3⟩,
            ⟨Flt.fin 4, Flt.fin 5, Flt.fin 6, Flt.fin 7⟩,
            ⟨Flt.fin 8, Flt.fin 9, Flt.fin 10, Flt.fin 11⟩,
            ⟨Flt.fin 12, Flt.fin 13, Flt.fin 14, Flt.fin 15⟩⟩ : mat4 Flt)
          mat4Identity).a.y = Flt.nan
      ∧ mat4Mul mat4Identity
          (⟨⟨Flt.pinf, Flt.fin 1, Flt.fin 2, Flt.fin 3⟩,
            ⟨Flt.fin 4, Flt.fin 5, Flt.fin 6, Flt.fin 7⟩,
            ⟨Flt.fin 8, Flt.fin 9, Flt.fin 10, Flt.fin 11⟩,
            ⟨Flt.fin 12, Flt.fin 13, Flt.fin 14, Flt.fin 15⟩⟩ : mat4 Flt)
        ≠ ⟨⟨Flt.pinf, Flt.fin 1, Flt.fin 2, Flt.fin 3⟩,
            ⟨Flt.fin 4, Flt.fin 5, Flt.fin 6, Flt.fin 7⟩,
            ⟨Flt.fin 8, Flt.fin 9, Flt.fin 10, Flt.fin 11⟩,
            ⟨Flt.fin 12, Flt.fin 13, Flt.fin 14, Flt.fin 15⟩⟩
      ∧ mat4Mul
          (⟨⟨Flt.pinf, Flt.fin 1, Flt.fin 2, Flt.fin 3⟩,
            ⟨Flt.fin 4, Flt.fin 5, Flt.fin 6, Flt.fin 7⟩,
            ⟨Flt.fin 8, Flt.fin 9, Flt.fin 10, Flt.fin 11⟩,
            ⟨Flt.fin 12, Flt.fin 13, Flt.fin 14, Flt.fin 15⟩⟩ : mat4 Flt)
          mat4Identity
        ≠ ⟨⟨Flt.pinf, Flt.fin 1, Flt.fin 2, Flt.fin 3⟩,
            ⟨Flt.fin 4, Flt.fin 5, Flt.fin 6, Flt.fin 7⟩,
            ⟨Flt.fin 8, Flt.fin 9, Flt.fin 10, Flt.fin 11⟩,
            ⟨Flt.fin 12, Flt.fin 13, Flt.fin 14, Flt.fin 15⟩⟩ := by
  have hl : (mat4Mul mat4Identity
      (⟨⟨Flt.pinf, Flt.fin 1, Flt.fin 2, Flt.fin 3⟩,
        ⟨Flt.fin 4, Flt.fin 5, Flt.fin 6, Flt.fin 7⟩,
        ⟨Flt.fin 8, Flt.fin 9, Flt.fin 10, Flt.fin 11⟩,
        ⟨Flt.fin 12, Flt.fin 13, Flt.fin 14, Flt.fin 15⟩⟩ : mat4 Flt)).b.x = Flt.nan := by
    simp [mat4Mul, mat4Identity, vec4Dot, Flt.zero_def, Flt.one_def, Flt.mul_def, Flt.add_def,
      Flt.mul, Flt.add, Flt.infTimes]
  have hr : (mat4Mul
      (⟨⟨Flt.pinf, Flt.fin 1, Flt.fin 2, Flt.fin 3⟩,
        ⟨Flt.fin 4, Flt.fin 5, Flt.fin 6, Flt.fin 7⟩,
        ⟨Flt.fin 8, Flt.fin 9, Flt.fin 10, Flt.fin 11⟩,
        ⟨Flt.fin 12, Flt.fin 13, Flt.fin 14, Flt.fin 15⟩⟩ : mat4 Flt)
      mat4Identity).a.y = Flt.nan := by
    simp [mat4Mul, mat4Identity, vec4Dot, Flt.zero_def, Flt.one_def, Flt.mul_def, Flt.add_def,
      Flt.mul, Flt.add, Flt.infTimes]
  refine ⟨hl, hr, ?_, ?_⟩
  · intro hEq
    rw [hEq] at hl
    simp at hl
  · intro hEq
    rw [hEq] at hr
    simp at hr

/-- C8, counterexample: the identity matrix applied to `(+Inf, 7, 8, 9)` gives
`(+Inf, NaN, NaN, NaN)`, not the vector. -/
theorem mat4MulVec4_identity_counterexample :
    mat4MulVec4 mat4Identity (⟨Flt.pinf, Flt.fin 7, Flt.fin 8, Flt.fin 9⟩ : vec4 Flt)
        = ⟨Flt.pinf, Flt.nan, Flt.nan, Flt.nan⟩
      ∧ mat4MulVec4 mat4Identity (⟨Flt.pinf, Flt.fin 7, Flt.fin 8, Flt.fin 9⟩ : vec4 Flt)
        ≠ ⟨Flt.pinf, Flt.fin 7, Flt.fin 8, Flt.fin 9⟩ := by
  have hv : mat4MulVec4 mat4Identity (⟨Flt.pinf, Flt.fin 7, Flt.fin 8, Flt.fin 9⟩ : vec4 Flt)
      = ⟨Flt.pinf, Flt.nan, Flt.nan, Flt.nan⟩ := by
    simp [mat4MulVec4, mat4Identity, vec4Dot, Flt.zero_def, Flt.one_def, Flt.mul_def,
      Flt.add_def, Flt.mul, Flt.add, Flt.infTimes]
  refine ⟨hv, ?_⟩
  rw [hv]
  simp

/-- C6, counterexample: `mat4Translate (1, 2, 3)` sends the point
`(+Inf, 5, 6, 1)` to `(+Inf, NaN, NaN, NaN)`, where
`(x + v.x, y + v.y, z + v.z, 1)` is `(+Inf, 7, 9, 1)`; and
`mat4Translate (+Inf, 0, 0)` sends the direction `(5, 6, 7, 0)` to
`(NaN, 6, 7, 0)`, not to itself. -/
theorem mat4Translate_counterexample :
    mat4MulVec4 (mat4Translate (⟨Flt.fin 1, Flt.fin 2, Flt.fin 3⟩ : vec3 Flt))
        ⟨Flt.pinf, Flt.fin 5, Flt.fin 6, 1⟩
        = ⟨Flt.pinf, Flt.nan, Flt.nan, Flt.nan⟩
      ∧ (⟨Flt.pinf + Flt.fin 1, Flt.fin 5 + Flt.fin 2, Flt.fin 6 + Flt.fin 3, 1⟩ : vec4 Flt)
        = ⟨Flt.pinf, Flt.fin 7, Flt.fin 9, Flt.fin 1⟩
      ∧ mat4MulVec4 (mat4Translate (⟨Flt.fin 1, Flt.fin 2, Flt.fin 3⟩ : vec3 Flt))
          ⟨Flt.pinf, Flt.fin 5, Flt.fin 6, 1⟩
        ≠ ⟨Flt.pinf + Flt.fin 1, Flt.fin 5 + Flt.fin 2, Flt.fin 6 + Flt.fin 3, 1⟩
      ∧ mat4MulVec4 (mat4Translate (⟨Flt.pinf, Flt.fin 0, Flt.fin 0⟩ : vec3 Flt))
          ⟨Flt.fin 5, Flt.fin 6, Flt.fin 7, 0⟩
        = ⟨Flt.nan, Flt.fin 6, Flt.fin 7, Flt.fin 0⟩
      ∧ mat4MulVec4 (mat4Translate (⟨Flt.pinf, Flt.fin 0, Flt.fin 0⟩ : vec3 Flt))
          ⟨Flt.fin 5, Flt.fin 6, Flt.fin 7, 0⟩
        ≠ ⟨Flt.fin 5, Flt.fin 6, Flt.fin 7, 0⟩ := by
  have hp : mat4MulVec4 (mat4Translate (⟨Flt.fin 1, Flt.fin 2, Flt.fin 3⟩ : vec3 Flt))
      ⟨Flt.pinf, Flt.fin 5, Flt.fin 6, 1⟩ = ⟨Flt.pinf, Flt.nan, Flt.nan, Flt.nan⟩ := by
    simp [mat4MulVec4, mat4Translate, mat4Identity, vec4Dot, Flt.zero_def, Flt.one_def,
      Flt.mul_def, Flt.add_def, Flt.mul, Flt.add, Flt.infTimes]
  have hq : (⟨Flt.pinf + Flt.fin 1, Flt.fin 5 + Flt.fin 2, Flt.fin 6 + Flt.fin 3, 1⟩ : vec4 Flt)
      = ⟨Flt.pinf, Flt.fin 7, Flt.fin 9, Flt.fin 1⟩ := by
    simp [Flt.one_def, Flt.add_def, Flt.add]
    norm_num
  have hd : mat4MulVec4 (mat4Translate (⟨Flt.pinf, Flt.fin 0, Flt.fin 0⟩ : vec3 Flt))
      ⟨Flt.fin 5, Flt.fin 6, Flt.fin 7, 0⟩ = ⟨Flt.nan, Flt.fin 6, Flt.fin 7, Flt.fin 0⟩ := by
    simp [mat4MulVec4, mat4Translate, mat4Identity, vec4Dot, Flt.zero_def, Flt.one_def,
      Flt.mul_def, Flt.add_def, Flt.mul, Flt.add, Flt.infTimes]
  refine ⟨hp, hq, ?_, hd, ?_⟩
  · rw [hp, hq]
    simp
  · rw [hd]
    simp

/-- C17, counterexample: the `w` component of `mat4Perspective 0 1 1 2` applied
to `(+Inf, 0, 5, 1)` is NaN, not `-5`. -/
theorem mat4Perspective_w_clip_counterexample :
    (mat4MulVec4 (mat4Perspective libmTable (Flt.fin 0) (Flt.fin 1) (Flt.fin 1) (Flt.fin 2))
        ⟨Flt.pinf, Flt.fin 0, Flt.fin 5, Flt.fin 1⟩).w = Flt.nan
      ∧ (mat4MulVec4 (mat4Perspective libmTable (Flt.fin 0) (Flt.fin 1) (Flt.fin 1) (Flt.fin 2))
          ⟨Flt.pinf, Flt.fin 0, Flt.fin 5, Flt.fin 1⟩).w
        ≠ -(⟨Flt.pinf, Flt.fin 0, Flt.fin 5, Flt.fin 1⟩ : vec4 Flt).z := by
  have hw : (mat4MulVec4
      (mat4Perspective libmTable (Flt.fin 0) (Flt.fin 1) (Flt.fin 1) (Flt.fin 2))
      ⟨Flt.pinf, Flt.fin 0, Flt.fin 5, Flt.fin 1⟩).w = Flt.nan := by
    show vec4Dot (⟨0, 0, -1, 0⟩ : vec4 Flt) ⟨Flt.pinf, Flt.fin 0, Flt.fin 5, Flt.fin 1⟩
      = Flt.nan
    simp [vec4Dot, Flt.zero_def, Flt.one_def, Flt.mul_def, Flt.add_def, Flt.neg_def,
      Flt.mul, Flt.add, Flt.neg, Flt.infTimes]
  refine ⟨hw, ?_⟩
  rw [hw]
  simp [Flt.neg_def, Flt.neg]

/-- C12, counterexample: the axis `(+Inf, 0, 0)` has length `+Inf`, which is
not zero; its normalization has a NaN, and `mat4Rotate` by the angle 0 has a
NaN at (a, x), where the identity has 1. -/
theorem mat4Rotate_zero_counterexample :
    vec3Length libmTable (⟨Flt.pinf, Flt.fin 0, Flt.fin 0⟩ : vec3 Flt) = Flt.pinf
      ∧ vec3Length libmTable (⟨Flt.pinf, Flt.fin 0, Flt.fin 0⟩ : vec3 Flt) ≠ 0
      ∧ vec3Normalize libmTable (⟨Flt.pinf, Flt.fin 0, Flt.fin 0⟩ : vec3 Flt)
        = ⟨Flt.nan, Flt.fin 0, Flt.fin 0⟩
      ∧ (mat4Rotate libmTable (⟨Flt.pinf, Flt.fin 0, Flt.fin 0⟩ : vec3 Flt) (Flt.fin 0)).a.x
        = Flt.nan
      ∧ mat4Rotate libmTable (⟨Flt.pinf, Flt.fin 0, Flt.fin 0⟩ : vec3 Flt) (Flt.fin 0)
        ≠ mat4Identity := by
  have hlen : vec3Length libmTable (⟨Flt.pinf, Flt.fin 0, Flt.fin 0⟩ : vec3 Flt) = Flt.pinf := by
    simp [vec3Length, libmTable_sqrtf_pinf, Flt.mul_def, Flt.add_def, Flt.mul, Flt.add]
  have hn : vec3Normalize libmTable (⟨Flt.pinf, Flt.fin 0, Flt.fin 0⟩ : vec3 Flt)
      = ⟨Flt.nan, Flt.fin 0, Flt.fin 0⟩ := by
    simp [vec3Normalize, hlen, Flt.one_def, Flt.mul_def, Flt.div_def, Flt.mul, Flt.div,
      Flt.infTimes]
  have hax : (mat4Rotate libmTable (⟨Flt.pinf, Flt.fin 0, Flt.fin 0⟩ : vec3 Flt)
      (Flt.fin 0)).a.x = Flt.nan := by
    simp only [mat4Rotate, hn, libmTable_cosf_zero, libmTable_sinf_zero]
    simp [Flt.one_def, Flt.mul_def, Flt.add_def, Flt.sub_def, Flt.mul, Flt.add, Flt.neg]
  refine ⟨hlen, ?_, hn, hax, ?_⟩
  · rw [hlen]
    simp [Flt.zero_def]
  · intro hEq
    rw [hEq] at hax
    simp [mat4Identity, Flt.one_def] at hax

/-! ## The Rodrigues block and the turn about `+z` -/

/-- With `sqrtf 1 = 1` the axis `(0, 0, 1)` is its own normalization. -/
theorem vec3Normalize_unit_z {F : Type} [Zero F] [One F] [Add F] [Sub F] [Mul F] [Div F]
    [Neg F] (finite : F → Prop) (h : IEEE finite) (L : Libm F) (hone : L.sqrtf 1 = 1) :
    vec3Normalize L (⟨0, 0, 1⟩ : vec3 F) = ⟨0, 0, 1⟩ := by
  simp only [vec3Normalize, vec3Length, h.zero_mul _ h.finite_zero, h.one_mul, h.add_zero,
    h.zero_add, hone, h.one_div_one, h.zero_mul _ h.finite_one]

/-- In the tabulated library the axis `(0, 0, 1)` is its own normalization. -/
theorem libmTable_normalize_z :
    vec3Normalize libmTable (⟨Flt.fin 0, Flt.fin 0, Flt.fin 1⟩ : vec3 Flt)
      = ⟨Flt.fin 0, Flt.fin 0, Flt.fin 1⟩ :=
  vec3Normalize_unit_z Flt.isFinite Flt.ieee libmTable libmTable_sqrtf_one

/-- In the tabulated library the rotation about `(0, 0, 1)` by the angle 0 is
the identity matrix. -/
theorem libmTable_rotate_z_zero :
    mat4Rotate libmTable (⟨Flt.fin 0, Flt.fin 0, Flt.fin 1⟩ : vec3 Flt) (Flt.fin 0)
      = mat4Identity :=
  mat4Rotate_of_cos_one_finite Flt.isFinite Flt.ieee libmTable _ _ libmTable_cosf_zero
    libmTable_sinf_zero (by rw [libmTable_normalize_z]; exact ⟨trivial, trivial, trivial⟩)

/-- C2, counterexample: with translation `(+Inf, 5, 6)`, axis `(0, 0, 1)`,
angle 0, scale `(2, 3, 4)` and the point `(1, 1, 1, 1)`, the composed matrix
gives `(NaN, 8, 10, 1)` while scale, then rotation, then translation give
`(+Inf, 8, 10, 1)`. -/
theorem mat4Transform_spec_counterexample :
    mat4MulVec4
        (mat4Transform libmTable ⟨Flt.pinf, Flt.fin 5, Flt.fin 6⟩
          ⟨Flt.fin 0, Flt.fin 0, Flt.fin 1⟩ (Flt.fin 0) ⟨Flt.fin 2, Flt.fin 3, Flt.fin 4⟩)
        ⟨Flt.fin 1, Flt.fin 1, Flt.fin 1, Flt.fin 1⟩
        = ⟨Flt.nan, Flt.fin 8, Flt.fin 10, Flt.fin 1⟩
      ∧ mat4MulVec4 (mat4Translate ⟨Flt.pinf, Flt.fin 5, Flt.fin 6⟩)
          (mat4MulVec4
            (mat4Rotate libmTable ⟨Flt.fin 0, Flt.fin 0, Flt.fin 1⟩ (Flt.fin 0))
            (mat4MulVec4 (mat4ScaleVec3 ⟨Flt.fin 2, Flt.fin 3, Flt.fin 4⟩)
              ⟨Flt.fin 1, Flt.fin 1, Flt.fin 1, Flt.fin 1⟩))
        = ⟨Flt.pinf, Flt.fin 8, Flt.fin 10, Flt.fin 1⟩
      ∧ mat4MulVec4
          (mat4Transform libmTable ⟨Flt.pinf, Flt.fin 5, Flt.fin 6⟩
            ⟨Flt.fin 0, Flt.fin 0, Flt.fin 1⟩ (Flt.fin 0) ⟨Flt.fin 2, Flt.fin 3, Flt.fin 4⟩)
          ⟨Flt.fin 1, Flt.fin 1, Flt.fin 1, Flt.fin 1⟩
        ≠ mat4MulVec4 (mat4Translate ⟨Flt.pinf, Flt.fin 5, Flt.fin 6⟩)
            (mat4MulVec4
              (mat4Rotate libmTable ⟨Flt.fin 0, Flt.fin 0, Flt.fin 1⟩ (Flt.fin 0))
              (mat4MulVec4 (mat4ScaleVec3 ⟨Flt.fin 2, Flt.fin 3, Flt.fin 4⟩)
                ⟨Flt.fin 1, Flt.fin 1, Flt.fin 1, Flt.fin 1⟩)) := by
  have hl : mat4MulVec4
      (mat4Transform libmTable ⟨Flt.pinf, Flt.fin 5, Flt.fin 6⟩
        ⟨Flt.fin 0, Flt.fin 0, Flt.fin 1⟩ (Flt.fin 0) ⟨Flt.fin 2, Flt.fin 3, Flt.fin 4⟩)
      ⟨Flt.fin 1, Flt.fin 1, Flt.fin 1, Flt.fin 1⟩
      = ⟨Flt.nan, Flt.fin 8, Flt.fin 10, Flt.fin 1⟩ := by
    simp only [mat4Transform, libmTable_rotate_z_zero]
    simp [mat4MulVec4, mat4Mul, mat4Translate, mat4ScaleVec3, mat4Identity, vec4Dot,
      Flt.zero_def, Flt.one_def, Flt.mul_def, Flt.add_def, Flt.mul, Flt.add, Flt.infTimes]
    norm_num
  have hr : mat4MulVec4 (mat4Translate ⟨Flt.pinf, Flt.fin 5, Flt.fin 6⟩)
      (mat4MulVec4
        (mat4Rotate libmTable ⟨Flt.fin 0, Flt.fin 0, Flt.fin 1⟩ (Flt.fin 0))
        (mat4MulVec4 (mat4ScaleVec3 ⟨Flt.fin 2, Flt.fin 3, Flt.fin 4⟩)
          ⟨Flt.fin 1, Flt.fin 1, Flt.fin 1, Flt.fin 1⟩))
      = ⟨Flt.pinf, Flt.fin 8, Flt.fin 10, Flt.fin 1⟩ := by
    simp only [libmTable_rotate_z_zero]
    simp [mat4MulVec4, mat4Translate, mat4ScaleVec3, mat4Identity, vec4Dot,
      Flt.zero_def, Flt.one_def, Flt.mul_def, Flt.add_def, Flt.mul, Flt.add, Flt.infTimes]
    norm_num
  refine ⟨hl, hr, ?_⟩
  rw [hl, hr]
  simp

/-- C11, counterexample: with translation `(+Inf, 2, 3)`, axis `(0, 0, 1)` of
length 1, angle 0 and scale `(2, 2, 2)`, the point `(1, 0, 0, 1)` goes to
`(NaN, 2, 3, 1)`, where `(s.x·x + t.x, s.y·y + t.y, s.z·z + t.z, 1)` is
`(+Inf, 2, 3, 1)`. -/
theorem mat4Transform_zero_angle_counterexample :
    vec3Length libmTable (⟨Flt.fin 0, Flt.fin 0, Flt.fin 1⟩ : vec3 Flt) = Flt.fin 1
      ∧ mat4MulVec4
          (mat4Transform libmTable ⟨Flt.pinf, Flt.fin 2, Flt.fin 3⟩
            ⟨Flt.fin 0, Flt.fin 0, Flt.fin 1⟩ (Flt.fin 0) ⟨Flt.fin 2, Flt.fin 2, Flt.fin 2⟩)
          ⟨Flt.fin 1, Flt.fin 0, Flt.fin 0, Flt.fin 1⟩
        = ⟨Flt.nan, Flt.fin 2, Flt.fin 3, Flt.fin 1⟩
      ∧ (⟨Flt.fin 2 * Flt.fin 1 + Flt.pinf, Flt.fin 2 * Flt.fin 0 + Flt.fin 2,
            Flt.fin 2 * Flt.fin 0 + Flt.fin 3, Flt.fin 1⟩ : vec4 Flt)
        = ⟨Flt.pinf, Flt.fin 2, Flt.fin 3, Flt.fin 1⟩
      ∧ mat4MulVec4
          (mat4Transform libmTable ⟨Flt.pinf, Flt.fin 2, Flt.fin 3⟩
            ⟨Flt.fin 0, Flt.fin 0, Flt.fin 1⟩ (Flt.fin 0) ⟨Flt.fin 2, Flt.fin 2, Flt.fin 2⟩)
          ⟨Flt.fin 1, Flt.fin 0, Flt.fin 0, Flt.fin 1⟩
        ≠ ⟨Flt.fin 2 * Flt.fin 1 + Flt.pinf, Flt.fin 2 * Flt.fin 0 + Flt.fin 2,
            Flt.fin 2 * Flt.fin 0 + Flt.fin 3, Flt.fin 1⟩ := by
  have hlen : vec3Length libmTable (⟨Flt.fin 0, Flt.fin 0, Flt.fin 1⟩ : vec3 Flt)
      = Flt.fin 1 := by
    simp [vec3Length, libmTable_sqrtf_one, Flt.mul_def, Flt.add_def, Flt.mul, Flt.add]
  have hl : mat4MulVec4
      (mat4Transform libmTable ⟨Flt.pinf, Flt.fin 2, Flt.fin 3⟩
        ⟨Flt.fin 0, Flt.fin 0, Flt.fin 1⟩ (Flt.fin 0) ⟨Flt.fin 2, Flt.fin 2, Flt.fin 2⟩)
      ⟨Flt.fin 1, Flt.fin 0, Flt.fin 0, Flt.fin 1⟩
      = ⟨Flt.nan, Flt.fin 2, Flt.fin 3, Flt.fin 1⟩ := by
    simp only [mat4Transform, libmTable_rotate_z_zero]
    simp [mat4MulVec4, mat4Mul, mat4Translate, mat4ScaleVec3, mat4Identity, vec4Dot,
      Flt.zero_def, Flt.one_def, Flt.mul_def, Flt.add_def, Flt.mul, Flt.add, Flt.infTimes]
  have hr : (⟨Flt.fin 2 * Flt.fin 1 + Flt.pinf, Flt.fin 2 * Flt.fin 0 + Flt.fin 2,
      Flt.fin 2 * Flt.fin 0 + Flt.fin 3, Flt.fin 1⟩ : vec4 Flt)
      = ⟨Flt.pinf, Flt.fin 2, Flt.fin 3, Flt.fin 1⟩ := by
    simp [Flt.mul_def, Flt.add_def, Flt.mul, Flt.add]
  refine ⟨hlen, hl, hr, ?_⟩
  rw [hl, hr]
  simp

/-! ## Instances in the carrier `Flt` -/

/-- Witness for C6: translation `(1, 2, 3)`, the point `(4, 5, 6, 1)` and the
direction `(4, 5, 6, 0)`. -/
theorem mat4Translate_spec_witness :
    IEEE Flt.isFinite
      ∧ mat4MulVec4 (mat4Translate (⟨Flt.fin 1, Flt.fin 2, Flt.fin 3⟩ : vec3 Flt))
          ⟨Flt.fin 4, Flt.fin 5, Flt.fin 6, 1⟩
        = ⟨Flt.fin 4 + Flt.fin 1, Flt.fin 5 + Flt.fin 2, Flt.fin 6 + Flt.fin 3, 1⟩
      ∧ mat4MulVec4 (mat4Translate (⟨Flt.fin 1, Flt.fin 2, Flt.fin 3⟩ : vec3 Flt))
          ⟨Flt.fin 4, Flt.fin 5, Flt.fin 6, 0⟩
        = ⟨Flt.fin 4, Flt.fin 5, Flt.fin 6, 0⟩ :=
  ⟨Flt.ieee,
    (mat4Translate_spec Flt.isFinite Flt.ieee ⟨Flt.fin 1, Flt.fin 2, Flt.fin 3⟩
      (Flt.fin 4) (Flt.fin 5) (Flt.fin 6) trivial trivial trivial).2.1,
    (mat4Translate_spec Flt.isFinite Flt.ieee ⟨Flt.fin 1, Flt.fin 2, Flt.fin 3⟩
      (Flt.fin 4) (Flt.fin 5) (Flt.fin 6) trivial trivial trivial).2.2
      ⟨trivial, trivial, trivial⟩⟩

/-- Witness for C7: the matrix with the entries 1 to 16. -/
theorem mat4Mul_identity_finite_witness :
    IEEE Flt.isFinite
      ∧ mat4Mul mat4Identity
          (⟨⟨Flt.fin 1, Flt.fin 2, Flt.fin 3, Flt.fin 4⟩,
            ⟨Flt.fin 5, Flt.fin 6, Flt.fin 7, Flt.fin 8⟩,
            ⟨Flt.fin 9, Flt.fin 10, Flt.fin 11, Flt.fin 12⟩,
            ⟨Flt.fin 13, Flt.fin 14, Flt.fin 15, Flt.fin 16⟩⟩ : mat4 Flt)
        = ⟨⟨Flt.fin 1, Flt.fin 2, Flt.fin 3, Flt.fin 4⟩,
            ⟨Flt.fin 5, Flt.fin 6, Flt.fin 7, Flt.fin 8⟩,
            ⟨Flt.fin 9, Flt.fin 10, Flt.fin 11, Flt.fin 12⟩,
            ⟨Flt.fin 13, Flt.fin 14, Flt.fin 15, Flt.fin 16⟩⟩ :=
  ⟨Flt.ieee,
    (mat4Mul_identity_finite Flt.isFinite Flt.ieee
      ⟨⟨Flt.fin 1, Flt.fin 2, Flt.fin 3, Flt.fin 4⟩,
        ⟨Flt.fin 5, Flt.fin 6, Flt.fin 7, Flt.fin 8⟩,
        ⟨Flt.fin 9, Flt.fin 10, Flt.fin 11, Flt.fin 12⟩,
        ⟨Flt.fin 13, Flt.fin 14, Flt.fin 15, Flt.fin 16⟩⟩
      ⟨⟨trivial, trivial, trivial, trivial⟩, ⟨trivial, trivial, trivial, trivial⟩,
        ⟨trivial, trivial, trivial, trivial⟩, ⟨trivial, trivial, trivial, trivial⟩⟩).1⟩

/-- Witness for C8: the vector `(1, 2, 3, 4)`. -/
theorem mat4MulVec4_identity_finite_witness :
    IEEE Flt.isFinite
      ∧ mat4MulVec4 mat4Identity (⟨Flt.fin 1, Flt.fin 2, Flt.fin 3, Flt.fin 4⟩ : vec4 Flt)
        = ⟨Flt.fin 1, Flt.fin 2, Flt.fin 3, Flt.fin 4⟩ :=
  ⟨Flt.ieee,
    mat4MulVec4_identity_finite Flt.isFinite Flt.ieee
      ⟨Flt.fin 1, Flt.fin 2, Flt.fin 3, Flt.fin 4⟩ ⟨trivial, trivial, trivial, trivial⟩⟩

/-- Witness for C11: the tabulated library, translation `(1, 2, 3)`, axis
`(0, 0, 1)`, scale `(2, 2, 2)` and the point `(1, 0, 0)`. -/
theorem mat4Transform_zero_angle_witness :
    IEEE Flt.isFinite
      ∧ libmTable.cosf 0 = 1 ∧ libmTable.sinf 0 = 0
      ∧ (vec3Normalize libmTable (⟨Flt.fin 0, Flt.fin 0, Flt.fin 1⟩ : vec3 Flt)).allFinite
          Flt.isFinite
      ∧ mat4MulVec4
          (mat4Transform libmTable ⟨Flt.fin 1, Flt.fin 2, Flt.fin 3⟩
            ⟨Flt.fin 0, Flt.fin 0, Flt.fin 1⟩ 0 ⟨Flt.fin 2, Flt.fin 2, Flt.fin 2⟩)
          ⟨Flt.fin 1, Flt.fin 0, Flt.fin 0, Flt.fin 1⟩
        = ⟨Flt.fin 3, Flt.fin 2, Flt.fin 3, Flt.fin 1⟩ := by
  have hu : (vec3Normalize libmTable (⟨Flt.fin 0, Flt.fin 0, Flt.fin 1⟩ : vec3 Flt)).allFinite
      Flt.isFinite := by
    rw [libmTable_normalize_z]
    exact ⟨trivial, trivial, trivial⟩
  exact ⟨Flt.ieee, libmTable_cosf_zero, libmTable_sinf_zero, hu,
    (mat4Transform_zero_angle Flt.isFinite Flt.ieee libmTable
      ⟨Flt.fin 1, Flt.fin 2, Flt.fin 3⟩ ⟨Flt.fin 0, Flt.fin 0, Flt.fin 1⟩
      ⟨Flt.fin 2, Flt.fin 2, Flt.fin 2⟩ (Flt.fin 1) (Flt.fin 0) (Flt.fin 0)
      libmTable_cosf_zero libmTable_sinf_zero hu
      ⟨trivial, trivial, trivial⟩ ⟨trivial, trivial, trivial⟩ trivial trivial trivial
      libmTable ⟨Flt.fin 0, Flt.fin 0, Flt.fin 1⟩
      libmTable_cosf_zero libmTable_sinf_zero hu).2⟩

/-- Witness for C12: the tabulated library and the axis `(0, 0, 1)`. -/
theorem mat4Rotate_zero_witness :
    IEEE Flt.isFinite
      ∧ libmTable.cosf 0 = 1 ∧ libmTable.sinf 0 = 0
      ∧ (vec3Normalize libmTable (⟨Flt.fin 0, Flt.fin 0, Flt.fin 1⟩ : vec3 Flt)).allFinite
          Flt.isFinite
      ∧ mat4Rotate libmTable (⟨Flt.fin 0, Flt.fin 0, Flt.fin 1⟩ : vec3 Flt) 0
        = mat4Identity := by
  have hu : (vec3Normalize libmTable (⟨Flt.fin 0, Flt.fin 0, Flt.fin 1⟩ : vec3 Flt)).allFinite
      Flt.isFinite := by
    rw [libmTable_normalize_z]
    exact ⟨trivial, trivial, trivial⟩
  exact ⟨Flt.ieee, libmTable_cosf_zero, libmTable_sinf_zero, hu,
    mat4Rotate_zero Flt.isFinite Flt.ieee libmTable ⟨Flt.fin 0, Flt.fin 0, Flt.fin 1⟩
      libmTable_cosf_zero libmTable_sinf_zero hu⟩

/-- Witness for C17: the parameters `(0, 1, 1, 2)` and the vector
`(1, 2, 5, 1)`. -/
theorem mat4Perspective_w_clip_witness :
    IEEE Flt.isFinite
      ∧ (mat4MulVec4
          (mat4Perspective libmTable (Flt.fin 0) (Flt.fin 1) (Flt.fin 1) (Flt.fin 2))
          ⟨Flt.fin 1, Flt.fin 2, Flt.fin 5, Flt.fin 1⟩).w = -(Flt.fin 5) :=
  ⟨Flt.ieee,
    mat4Perspective_w_clip Flt.isFinite Flt.ieee libmTable (Flt.fin 0) (Flt.fin 1) (Flt.fin 1)
      (Flt.fin 2) ⟨Flt.fin 1, Flt.fin 2, Flt.fin 5, Flt.fin 1⟩ trivial trivial trivial⟩

/-! ## The projection matrix: layout, and the constant against `π` -/

/-- The matrix `mat4Perspective` builds, entry by entry as the header computes
it, whatever the arithmetic. -/
theorem mat4Perspective_layout {F : Type} [Zero F] [One F] [NatCast F] [Add F] [Sub F]
    [Mul F] [Div F] [Neg F] (L : Libm F) (fovDeg aspectRatio nearPlane farPlane : F) :
    mat4Perspective L fovDeg aspectRatio nearPlane farPlane
      = ⟨⟨1 / (aspectRatio * L.tanf (fovDeg * (piLiteral / ((180 : ℕ) : F)) / ((2 : ℕ) : F))),
          0, 0, 0⟩,
         ⟨0, 1 / L.tanf (fovDeg * (piLiteral / ((180 : ℕ) : F)) / ((2 : ℕ) : F)), 0, 0⟩,
         ⟨0, 0, -(farPlane + nearPlane) / (farPlane - nearPlane),
          -(((2 : ℕ) : F) * farPlane * nearPlane) / (farPlane - nearPlane)⟩,
         ⟨0, 0, -1, 0⟩⟩ :=
  rfl

/-- The value of the literal `3.14159265f` lies strictly above `π`. -/
theorem piLiteral_gt_pi : Real.pi < (piLiteral : ℝ) := by
  have h := Real.pi_lt_d20
  simp only [piLiteral]
  norm_num at h ⊢
  linarith

/-- In exact real arithmetic on the value of the literal, with the real
tangent, row1.y of `mat4Perspective 90 1 (1/10) 100` is strictly below 1: the
half angle lies strictly between `π / 4` and `π / 2`. -/
theorem mat4Perspective_exact_row1_y_lt_one :
    (mat4Perspective (Libm.mk Real.sqrt Real.cos Real.sin Real.tan) 90 1 (1 / 10) 100).b.y
      < 1 := by
  have hlo := piLiteral_gt_pi
  have hpi := Real.pi_pos
  have hhi : (piLiteral : ℝ) < 4 := by
    simp only [piLiteral]
    norm_num
  have hpi3 := Real.pi_gt_three
  have hy : (mat4Perspective (Libm.mk Real.sqrt Real.cos Real.sin Real.tan)
      90 1 (1 / 10) 100).b.y = 1 / Real.tan (90 * (piLiteral / ((180 : ℕ) : ℝ)) / ((2 : ℕ) : ℝ)) :=
    rfl
  have hx : (90 : ℝ) * (piLiteral / ((180 : ℕ) : ℝ)) / ((2 : ℕ) : ℝ) = piLiteral / 4 := by
    push_cast
    ring
  have hgt : 1 < Real.tan ((piLiteral : ℝ) / 4) := by
    rw [← Real.tan_pi_div_four]
    apply Real.tan_lt_tan_of_lt_of_lt_pi_div_two <;> linarith
  rw [hy, hx, div_lt_one (by linarith)]
  exact hgt

end Bvec
